import Mathlib

/-!
Verification of the ARM communication-interface layer of `probe-rs`
(`src/probe-rs/src/architecture/arm/communication_interface.rs`).

The embedding models the selection-cache state machine
(`ArmCommunicationInterface<Initialized>`), AP classification
(`ApInformation::read_from_target`) and the ROM-table chip-identification
scan (`read_from_rom_table`).  The physical transport probe, the bring-up
sequence, the iterator of valid access ports and the component-tree parser
are collaborators outside this file's source; they are modelled as oracles
(`Env`, `ApRegOracle`) following the spec's description of their
interfaces.  Register bit layouts (IDR, BASE, CSW, CTRL, SELECT, ABORT)
live in sibling modules of the repository and are modelled from the spec's
semantic field descriptions.

Operations are embedded as explicit state-passing functions that also
return the list of transport-level events they emit, so that claims about
"how many SELECT writes are issued" or "what is written before what"
become statements about these traces.
-/

namespace ProbeRs

/-- Debug port address (`DpAddress` in the source): the default port or a
multidrop-addressed one. -/
inductive DpAddress
  | Default
  | Multidrop (targetsel : Nat)
deriving DecidableEq

/-- Access port address (`ApAddress` in the source): owning DP plus AP index. -/
structure ApAddress where
  dp : DpAddress
  ap : Nat
deriving DecidableEq

/-- Error outcomes of the modelled operations.  `transport` abstracts the
probe-level `DebugProbeError` variants; `panicUnwrap` models a Rust
`unwrap()` failure; `outOfFuel` is an artefact of the fuel-indexed
embedding and corresponds to no source behaviour; the last two model the
`anyhow` errors produced by `ap_information` and `memory_interface`. -/
inductive Err
  | transport (code : Nat)
  | outOfFuel
  | panicUnwrap
  | apDoesNotExist
  | notMemoryAp
deriving DecidableEq

/-- Register space of a raw transport transaction (`PortType`). -/
inductive PortType
  | DebugPort
  | AccessPort
deriving DecidableEq

/-- Modelled from the spec: DP SELECT register address (the non-banked DP
register used by both bank-selection writes). -/
def SELECT_ADDR : Nat := 8

/-- Modelled from the spec: DP CTRL/STAT register address (the banked
register at address 0x4). -/
def CTRL_ADDR : Nat := 4

/-- Modelled from the spec: DP ABORT register address. -/
def ABORT_ADDR : Nat := 0

/-- Modelled from the spec: AP IDR register address (bank 0xF, offset 0xC). -/
def IDR_ADDR : Nat := 0xFC

/-- Modelled from the spec: AP BASE register address. -/
def BASE_ADDR : Nat := 0xF8

/-- Modelled from the spec: AP BASE2 register address (high half of an
extended base address). -/
def BASE2_ADDR : Nat := 0xF0

/-- Modelled from the spec: AP CSW register address. -/
def CSW_ADDR : Nat := 0x00

/-- Modelled from the spec: the SELECT register simultaneously encodes the
AP index, the AP register bank and the DP register bank. -/
def encodeSelect (apsel apbanksel dpbanksel : Nat) : Nat :=
  apsel * 2 ^ 24 + apbanksel * 2 ^ 4 + dpbanksel

/-- Modelled from the spec: the CLASS field of a raw IDR value (the field
the source reads as `idr.CLASS`). -/
def idrClassOf (v : Nat) : Nat := v / 2 ^ 13 % 2 ^ 4

/-- Modelled from the spec: the IDR CLASS code denoting a Memory AP
(`ApClass::MemAp`). -/
def memApCode : Nat := 8

/-- Modelled from the spec: the BASE register format flag; `true` means the
ADIv5 extended (64-bit) base layout (`BaseaddrFormat::ADIv5`). -/
def baseFormatIsADIv5 (v : Nat) : Bool := v / 2 % 2 = 1

/-- Modelled from the spec: the BASEADDR field of a raw BASE value — the
low 12 bits of the register are reserved/flag bits, not address bits, so
the field is the value shifted right by 12. -/
def baseaddrOf (v : Nat) : Nat := v / 2 ^ 12

/-- Modelled from the spec: BASE2 carries the high 32 address bits; its
BASEADDR field is the whole register. -/
def base2addrOf (v : Nat) : Nat := v

/-- Modelled from the spec: the SIZE field of a raw CSW value (transfer
size; code 0 denotes 8-bit transfers, `DataSize::U8`). -/
def cswSizeOf (v : Nat) : Nat := v % 8

/-- Modelled from the spec: the HNONSEC bit of a raw CSW value. -/
def cswHnonsecOf (v : Nat) : Nat := v / 2 ^ 30 % 2

/-- Modelled from the spec: the probe CSW value written by classification,
requesting 8-bit transfer size (`CSW::new(DataSize::U8)`); its SIZE field
is the 8-bit code. -/
def cswProbeValue : Nat := 0

/-- Modelled from the spec: the sticky-error flag of a raw CTRL/STAT value
(`ctrl_reg.sticky_err()`). -/
def stickyErrOf (v : Nat) : Bool := v / 2 ^ 5 % 2 = 1

/-- Modelled from the spec: force the overrun-detect bit of a raw
CTRL/STAT value to the given flag (`ctrl_reg.set_orun_detect`). -/
def setOrunDetect (v : Nat) (b : Bool) : Nat :=
  v / 2 * 2 + (if b then 1 else 0)

/-- Modelled from the spec: the ABORT value written to clear a sticky
error — default ABORT with the sticky-error-clear bit set
(`Abort::default()` then `set_stkerrclr(true)`). -/
def abortStkerrclrValue : Nat := 4

/-- Information about a classified Memory AP (`MemoryApInformation`). -/
structure MemoryApInformation where
  address : ApAddress
  only_32bit_data_size : Bool
  debug_base_address : Nat
  supports_hnonsec : Bool
deriving DecidableEq

/-- Classification result for one AP (`ApInformation`). -/
inductive ApInformation
  | MemoryAp (info : MemoryApInformation)
  | Other (address : ApAddress)
deriving DecidableEq

/-- Per-DP cached selection state (`DpState`). -/
structure DpState where
  debug_port_version : Nat
  current_dpbanksel : Nat
  current_apsel : Nat
  current_apbanksel : Nat
  ap_information : List ApInformation
deriving DecidableEq

/-- Fresh per-DP state (`DpState::new`): version `Unsupported(0xFF)`,
all bank selections zero, no APs discovered. -/
def DpState.new : DpState :=
  { debug_port_version := 0xFF
    current_dpbanksel := 0
    current_apsel := 0
    current_apbanksel := 0
    ap_information := [] }


/-! ### AP classification (`ApInformation::read_from_target`)

The source function is generic over an `ApAccess` implementation; it is
embedded here against an oracle that supplies the response of each typed
AP register access in the order the function performs them.  The trace of
accesses is returned alongside the result. -/

/-- Decidable equality for `Except`, needed to evaluate concrete runs. -/
instance instDecEqExcept {ε α : Type} [DecidableEq ε] [DecidableEq α] :
    DecidableEq (Except ε α) := fun a b =>
  match a, b with
  | Except.ok x, Except.ok y =>
    if h : x = y then isTrue (by rw [h])
    else isFalse (by intro hh; cases hh; exact h rfl)
  | Except.error x, Except.error y =>
    if h : x = y then isTrue (by rw [h])
    else isFalse (by intro hh; cases hh; exact h rfl)
  | Except.ok _, Except.error _ => isFalse (by intro hh; cases hh)
  | Except.error _, Except.ok _ => isFalse (by intro hh; cases hh)

/-- Observable AP register access of `read_from_target`. -/
inductive BEvent
  | readAp (addr : Nat)
  | writeAp (addr : Nat) (value : Nat)
deriving DecidableEq

/-- Result of a classification step: emitted accesses plus outcome. -/
structure BRes (α : Type) where
  trace : List BEvent
  out : Except Err α
deriving DecidableEq

/-- Sequencing for classification steps: propagate errors, concatenate
traces (models Rust `?`). -/
def bstep {α β : Type} (r : BRes α) (f : α → BRes β) : BRes β :=
  match r.out with
  | Except.error e => ⟨r.trace, Except.error e⟩
  | Except.ok a =>
    let r2 := f a
    ⟨r.trace ++ r2.trace, r2.out⟩

/-- One AP register read with the oracle's response. -/
def bread (addr : Nat) (r : Except Err Nat) : BRes Nat := ⟨[BEvent.readAp addr], r⟩

/-- One AP register write with the oracle's response. -/
def bwrite (addr : Nat) (v : Nat) (r : Except Err Unit) : BRes Unit :=
  ⟨[BEvent.writeAp addr v], r⟩

/-- Oracle for the (statically known) access sequence of
`read_from_target`: one response per access occurrence. -/
structure ApRegOracle where
  idrv : Except Err Nat
  basev : Except Err Nat
  base2v : Except Err Nat
  cswOld : Except Err Nat
  wProbe : Except Err Unit
  cswBack : Except Err Nat
  wRestore : Except Err Unit
deriving DecidableEq

/-- Embedding of `ApInformation::read_from_target` (source lines 162-215):
read IDR; for a Memory AP read BASE (and BASE2 only in the ADIv5 extended
format case), assemble the 64-bit debug base address, then save CSW, write
the 8-bit probe CSW, read CSW back, restore the saved CSW, and derive the
capability flags from the readback. -/
def read_from_target (o : ApRegOracle) (access_port : ApAddress) : BRes ApInformation :=
  bstep (bread IDR_ADDR o.idrv) fun idr =>
  if idrClassOf idr = memApCode then
    bstep (bread BASE_ADDR o.basev) fun base =>
    bstep (if baseFormatIsADIv5 base then
             bstep (bread BASE2_ADDR o.base2v) fun b2 =>
               ⟨[], Except.ok (base2addrOf b2 * 2 ^ 32)⟩
           else ⟨[], Except.ok 0⟩) fun high =>
    let base_address := Nat.lor high (baseaddrOf base * 2 ^ 12 % 2 ^ 32)
    bstep (bread CSW_ADDR o.cswOld) fun old_csw =>
    bstep (bwrite CSW_ADDR cswProbeValue o.wProbe) fun _ =>
    bstep (bread CSW_ADDR o.cswBack) fun csw =>
    bstep (bwrite CSW_ADDR old_csw o.wRestore) fun _ =>
    ⟨[], Except.ok (ApInformation.MemoryAp
      { address := access_port
        only_32bit_data_size := decide (cswSizeOf csw ≠ 0)
        debug_base_address := base_address
        supports_hnonsec := decide (cswHnonsecOf csw = 1) })⟩
  else ⟨[], Except.ok (ApInformation.Other access_port)⟩

/-- Whether a classification event is a write. -/
def BEvent.isWriteB : BEvent → Bool
  | BEvent.readAp _ => false
  | BEvent.writeAp _ _ => true

/-! ### The selection-cache state machine (`ArmCommunicationInterface<Initialized>`)

The interface state mirrors the source's `Initialized` struct; the
`HashMap<DpAddress, DpState>` is embedded as a key-unique association
list.  The physical transport and the collaborators (bring-up sequence,
valid-AP iterator, memory-interface constructor, component parser) are an
oracle `Env`; the hardware's SELECT register and selected DP are tracked
in a small `Device` so that read responses can depend on which AP/bank the
hardware actually has selected.  Every operation returns the new state,
the list of transport events it emitted, and its outcome. -/

/-- Lookup in the DP-state map (`self.state.dps.get(&dp)`). -/
def lookupDp : List (DpAddress × DpState) → DpAddress → Option DpState
  | [], _ => none
  | (k, v) :: rest, d => if k = d then some v else lookupDp rest d

/-- Insert/replace in the DP-state map (`self.state.dps.insert` and the
write-back of a `get_mut` mutation). -/
def insertDp : List (DpAddress × DpState) → DpAddress → DpState → List (DpAddress × DpState)
  | [], d, st => [(d, st)]
  | (k, v) :: rest, d, st =>
    if k = d then (d, st) :: rest else (k, v) :: insertDp rest d st

/-- Mirrored hardware state: which DP the probe has physically selected
and the current value of the hardware SELECT register. -/
structure Device where
  dp : Option DpAddress
  sel : Nat
deriving DecidableEq

/-- The `Initialized` interface state (source lines 94-99; the shared
bring-up sequence handle lives in the environment). -/
structure Initialized where
  current_dp : Option DpAddress
  dps : List (DpAddress × DpState)
  use_overrun_detect : Bool
deriving DecidableEq

/-- Interface state plus mirrored hardware state. -/
structure Sys where
  st : Initialized
  dev : Device
deriving DecidableEq

/-- Observable transport-level event. -/
inductive Event
  | selectDp (dp : DpAddress)
  | rawRead (port : PortType) (addr : Nat)
  | rawWrite (port : PortType) (addr : Nat) (value : Nat)
  | debugPortStart (dp : DpAddress)
  | collabBase (ap : Nat)
  | collabMemNew (ap : Nat)
  | collabParse (ap : Nat) (base : Nat)
deriving DecidableEq

/-- Whether an event is a physical select-DP transaction. -/
def Event.isSelDp : Event → Bool
  | Event.selectDp _ => true
  | _ => false

/-- Whether an event is a write of the DP SELECT register. -/
def Event.isSelectWrite : Event → Bool
  | Event.rawWrite PortType.DebugPort a _ => decide (a = SELECT_ADDR)
  | _ => false

/-- Whether an event is any raw register write. -/
def Event.isWrite : Event → Bool
  | Event.rawWrite _ _ _ => true
  | _ => false

/-- Whether an event is an AP register read. -/
def Event.isApRead : Event → Bool
  | Event.rawRead PortType.AccessPort _ => true
  | _ => false

/-- Whether an event is the debug-port-start collaborator call that begins
the one-time per-DP bring-up and discovery scan. -/
def Event.isDpStart : Event → Bool
  | Event.debugPortStart _ => true
  | _ => false

/-- The parsed component the component-tree collaborator returns
(`Component::try_parse`); only the class-1 ROM table case is
distinguished, as in the source. -/
structure PeripheralId where
  jep : Option (Nat × Nat)
  part : Nat
deriving DecidableEq

inductive Component
  | Class1RomTable (pid : PeripheralId)
  | NonRom
deriving DecidableEq

/-- Chip identity (`ArmChipInfo`): JEDEC continuation code, identity code
and part number. -/
structure ArmChipInfo where
  cc : Nat
  id : Nat
  part : Nat
deriving DecidableEq

/-- Oracle for the transport and the external collaborators; their
failures are transport-level error codes, lifted into `Err` by `tlift`. -/
structure Env where
  selectDpRes : DpAddress → Except Nat Unit
  readVal : Option DpAddress → Nat → PortType → Nat → Except Nat Nat
  writeRes : PortType → Nat → Nat → Except Nat Unit
  debugPortStartRes : DpAddress → Except Nat Unit
  validAps : DpAddress → List Nat
  baseOf : Nat → Except Nat Nat
  memNew : Nat → Except Nat Unit
  parseComp : Nat → Nat → Except Nat Component

/-- Lift a transport-level outcome into the modelled error type. -/
def tlift {α : Type} : Except Nat α → Except Err α
  | Except.ok a => Except.ok a
  | Except.error c => Except.error (Err.transport c)

/-- Result of a modelled operation: final state, emitted events, outcome. -/
structure Res (α : Type) where
  sys : Sys
  trace : List Event
  out : Except Err α
deriving DecidableEq

/-- Sequencing of modelled operations (Rust `?`): short-circuit on error,
concatenate event traces. -/
def step {α β : Type} (r : Res α) (f : α → Sys → Res β) : Res β :=
  match r.out with
  | Except.error e => ⟨r.sys, r.trace, Except.error e⟩
  | Except.ok a =>
    let r2 := f a r.sys
    ⟨r2.sys, r.trace ++ r2.trace, r2.out⟩

/-- A raw register read (`probe.raw_read_register`): the response depends
on the hardware-selected DP and SELECT value. -/
def rawReadOp (env : Env) (s : Sys) (port : PortType) (addr : Nat) : Res Nat :=
  ⟨s, [Event.rawRead port addr], tlift (env.readVal s.dev.dp s.dev.sel port addr)⟩

/-- A raw register write (`probe.raw_write_register`); a successful write
of the DP SELECT register updates the hardware SELECT mirror. -/
def rawWriteOp (env : Env) (s : Sys) (port : PortType) (addr : Nat) (v : Nat) : Res Unit :=
  match env.writeRes port addr v with
  | Except.ok _ =>
    ⟨{ s with dev := if port = PortType.DebugPort ∧ addr = SELECT_ADDR
                     then { s.dev with sel := v } else s.dev },
     [Event.rawWrite port addr v], Except.ok ()⟩
  | Except.error e => ⟨s, [Event.rawWrite port addr v], Except.error (Err.transport e)⟩

/-- The SELECT-register write `self.write_dp_register(dp, select)` as it
unfolds at SELECT's own (non-banked) address: `write_raw_dp_register(dp,
SELECT, v)` first runs `select_dp_and_dp_bank(dp, SELECT_ADDR)` — that is
`select_dp`, the `unwrap`ped map lookup, and the immediate non-banked
return — and then issues the raw write.  The parameter `sdp` is the
`select_dp` call available at this recursion depth. -/
def writeSelectWith (sdp : Sys → DpAddress → Res Unit) (env : Env) (s : Sys)
    (dp : DpAddress) (v : Nat) : Res Unit :=
  step (sdp s dp) fun _ s =>
  match lookupDp s.st.dps dp with
  | none => ⟨s, [], Except.error Err.panicUnwrap⟩
  | some _ => rawWriteOp env s PortType.DebugPort SELECT_ADDR v

/-- `select_dp_and_dp_bank` (source lines 424-460): select the DP, unwrap
its state, return immediately unless the register address is the banked
0x4, and otherwise write SELECT only when the requested bank differs from
the cached one, updating the cache first. -/
def sdpbWith (sdp : Sys → DpAddress → Res Unit) (env : Env) (s : Sys)
    (dp : DpAddress) (dp_register_address : Nat) : Res Unit :=
  step (sdp s dp) fun _ s =>
  match lookupDp s.st.dps dp with
  | none => ⟨s, [], Except.error Err.panicUnwrap⟩
  | some dp_state =>
    let bank := dp_register_address / 16
    let addr := dp_register_address % 16
    if addr ≠ 4 then ⟨s, [], Except.ok ()⟩
    else if bank = dp_state.current_dpbanksel then ⟨s, [], Except.ok ()⟩
    else
      let dp_state' := { dp_state with current_dpbanksel := bank }
      let s' : Sys := { s with st := { s.st with dps := insertDp s.st.dps dp dp_state' } }
      writeSelectWith sdp env s' dp
        (encodeSelect dp_state'.current_apsel dp_state'.current_apbanksel
          dp_state'.current_dpbanksel)

/-- `select_ap_and_ap_bank` (source lines 462-504): select the DP, unwrap
its state, and when the requested AP index or AP bank differs from the
cache, update both cached fields and write them in a single SELECT
write. -/
def sapbWith (sdp : Sys → DpAddress → Res Unit) (env : Env) (s : Sys)
    (ap : ApAddress) (ap_register_address : Nat) : Res Unit :=
  step (sdp s ap.dp) fun _ s =>
  match lookupDp s.st.dps ap.dp with
  | none => ⟨s, [], Except.error Err.panicUnwrap⟩
  | some dp_state =>
    let port := ap.ap
    let ap_bank := ap_register_address / 16
    if dp_state.current_apsel ≠ port ∨ dp_state.current_apbanksel ≠ ap_bank then
      let dp_state' := { dp_state with current_apsel := port, current_apbanksel := ap_bank }
      let s' : Sys := { s with st := { s.st with dps := insertDp s.st.dps ap.dp dp_state' } }
      writeSelectWith sdp env s' ap.dp
        (encodeSelect dp_state'.current_apsel dp_state'.current_apbanksel
          dp_state'.current_dpbanksel)
    else ⟨s, [], Except.ok ()⟩

/-- `read_raw_dp_register` (source lines 566-570). -/
def readRawDpWith (sdp : Sys → DpAddress → Res Unit) (env : Env) (s : Sys)
    (dp : DpAddress) (addr : Nat) : Res Nat :=
  step (sdpbWith sdp env s dp addr) fun _ s => rawReadOp env s PortType.DebugPort addr

/-- `write_raw_dp_register` (source lines 572-582). -/
def writeRawDpWith (sdp : Sys → DpAddress → Res Unit) (env : Env) (s : Sys)
    (dp : DpAddress) (addr : Nat) (v : Nat) : Res Unit :=
  step (sdpbWith sdp env s dp addr) fun _ s => rawWriteOp env s PortType.DebugPort addr v

/-- `read_raw_ap_register` (source lines 584-592). -/
def readRawApWith (sdp : Sys → DpAddress → Res Unit) (env : Env) (s : Sys)
    (ap : ApAddress) (addr : Nat) : Res Nat :=
  step (sapbWith sdp env s ap addr) fun _ s => rawReadOp env s PortType.AccessPort addr

/-- `write_raw_ap_register` (source lines 607-617). -/
def writeRawApWith (sdp : Sys → DpAddress → Res Unit) (env : Env) (s : Sys)
    (ap : ApAddress) (addr : Nat) (v : Nat) : Res Unit :=
  step (sapbWith sdp env s ap addr) fun _ s => rawWriteOp env s PortType.AccessPort addr v

/-- `ApInformation::read_from_target` as invoked during discovery with the
interface itself as the `ApAccess` implementation: every typed AP register
access goes through `select_ap_and_ap_bank` plus a raw transaction. -/
def read_from_target_via_dap (sdp : Sys → DpAddress → Res Unit) (env : Env) (s : Sys)
    (access_port : ApAddress) : Res ApInformation :=
  step (readRawApWith sdp env s access_port IDR_ADDR) fun idr s =>
  if idrClassOf idr = memApCode then
    step (readRawApWith sdp env s access_port BASE_ADDR) fun base s =>
    step (if baseFormatIsADIv5 base then
            step (readRawApWith sdp env s access_port BASE2_ADDR) fun b2 s =>
              ⟨s, [], Except.ok (base2addrOf b2 * 2 ^ 32)⟩
          else ⟨s, [], Except.ok 0⟩) fun high s =>
    let base_address := Nat.lor high (baseaddrOf base * 2 ^ 12 % 2 ^ 32)
    step (readRawApWith sdp env s access_port CSW_ADDR) fun old_csw s =>
    step (writeRawApWith sdp env s access_port CSW_ADDR cswProbeValue) fun _ s =>
    step (readRawApWith sdp env s access_port CSW_ADDR) fun csw s =>
    step (writeRawApWith sdp env s access_port CSW_ADDR old_csw) fun _ s =>
    ⟨s, [], Except.ok (ApInformation.MemoryAp
      { address := access_port
        only_32bit_data_size := decide (cswSizeOf csw ≠ 0)
        debug_base_address := base_address
        supports_hnonsec := decide (cswHnonsecOf csw = 1) })⟩
  else ⟨s, [], Except.ok (ApInformation.Other access_port)⟩

/-- The collaborator call `sequence.debug_port_start(self, dp)`, modelled
as an oracle outcome (per spec section 4.2 it is an external bring-up
step). -/
def debugPortStartOp (env : Env) (s : Sys) (dp : DpAddress) : Res Unit :=
  ⟨s, [Event.debugPortStart dp], tlift (env.debugPortStartRes dp)⟩

/-- The discovery loop of `select_dp` (source lines 411-418): classify
each valid AP in order and append the result to the owning `DpState`
(re-fetched and `unwrap`ped on every iteration, as in the source). -/
def apScanWith (sdp : Sys → DpAddress → Res Unit) (env : Env) (dp : DpAddress) :
    Sys → List Nat → Res Unit
  | s, [] => ⟨s, [], Except.ok ()⟩
  | s, a :: rest =>
    step (read_from_target_via_dap sdp env s ⟨dp, a⟩) fun ap_state s =>
    match lookupDp s.st.dps dp with
    | none => ⟨s, [], Except.error Err.panicUnwrap⟩
    | some state =>
      let st' : DpState := { state with ap_information := state.ap_information ++ [ap_state] }
      apScanWith sdp env dp { s with st := { s.st with dps := insertDp s.st.dps dp st' } } rest

/-- The one-time per-DP bring-up (source lines 396-419, after the
`DpState` insertion): run `debug_port_start`, force the overrun-detect bit
of CTRL/STAT to the configured preference, then scan the valid APs. -/
def discoveryWith (sdp : Sys → DpAddress → Res Unit) (env : Env) (s : Sys)
    (dp : DpAddress) : Res Unit :=
  step (debugPortStartOp env s dp) fun _ s =>
  step (readRawDpWith sdp env s dp CTRL_ADDR) fun ctrl s =>
  step (writeRawDpWith sdp env s dp CTRL_ADDR
    (setOrunDetect ctrl s.st.use_overrun_detect)) fun _ s =>
  apScanWith sdp env dp s (env.validAps dp)

/-- `select_dp` (source lines 382-422), fuel-indexed because the nested
register accesses of discovery re-enter `select_dp`: cache hit returns
immediately; otherwise issue the physical select transaction, clearing the
cached current DP and propagating on failure; on success record the DP as
current and, if it was never seen, insert a fresh `DpState` and run the
one-time bring-up and discovery scan. -/
def select_dp (env : Env) : Nat → Sys → DpAddress → Res Unit
  | 0, s, _ => ⟨s, [], Except.error Err.outOfFuel⟩
  | fuel + 1, s, dp =>
    if s.st.current_dp = some dp then ⟨s, [], Except.ok ()⟩
    else
      match env.selectDpRes dp with
      | Except.error e =>
        ⟨{ s with st := { s.st with current_dp := none } },
         [Event.selectDp dp], Except.error (Err.transport e)⟩
      | Except.ok _ =>
        let s1 : Sys := { st := { s.st with current_dp := some dp },
                          dev := { s.dev with dp := some dp } }
        if (lookupDp s1.st.dps dp).isSome then ⟨s1, [Event.selectDp dp], Except.ok ()⟩
        else
          let s2 : Sys := { s1 with st :=
            { s1.st with dps := insertDp s1.st.dps dp DpState.new } }
          let r := discoveryWith (fun s' d => select_dp env fuel s' d) env s2 dp
          ⟨r.sys, Event.selectDp dp :: r.trace, r.out⟩

/-- `select_dp_and_dp_bank` at a given fuel. -/
def select_dp_and_dp_bank (fuel : Nat) (env : Env) (s : Sys)
    (dp : DpAddress) (dp_register_address : Nat) : Res Unit :=
  sdpbWith (fun s' d => select_dp env fuel s' d) env s dp dp_register_address

/-- `select_ap_and_ap_bank` at a given fuel. -/
def select_ap_and_ap_bank (fuel : Nat) (env : Env) (s : Sys)
    (ap : ApAddress) (ap_register_address : Nat) : Res Unit :=
  sapbWith (fun s' d => select_dp env fuel s' d) env s ap ap_register_address

/-- `read_raw_dp_register` at a given fuel. -/
def read_raw_dp_register (fuel : Nat) (env : Env) (s : Sys)
    (dp : DpAddress) (addr : Nat) : Res Nat :=
  readRawDpWith (fun s' d => select_dp env fuel s' d) env s dp addr

/-- `write_raw_dp_register` at a given fuel. -/
def write_raw_dp_register (fuel : Nat) (env : Env) (s : Sys)
    (dp : DpAddress) (addr : Nat) (v : Nat) : Res Unit :=
  writeRawDpWith (fun s' d => select_dp env fuel s' d) env s dp addr v

/-- `read_raw_ap_register` at a given fuel. -/
def read_raw_ap_register (fuel : Nat) (env : Env) (s : Sys)
    (ap : ApAddress) (addr : Nat) : Res Nat :=
  readRawApWith (fun s' d => select_dp env fuel s' d) env s ap addr

/-- A caller's sequence of raw DP register reads, used to state the
frame property of claim C2 over whole access sequences. -/
def runDpReads (fuel : Nat) (env : Env) (dp : DpAddress) : Sys → List Nat → Res Unit
  | s, [] => ⟨s, [], Except.ok ()⟩
  | s, A :: rest =>
    step (read_raw_dp_register fuel env s dp A) fun _ s => runDpReads fuel env dp s rest

/-- `ap_information` (source lines 507-520): select the DP, unwrap its
state, and return the cached classification for the AP index, or the
"AP does not exist" error. -/
def ap_information (fuel : Nat) (env : Env) (s : Sys) (access_port : ApAddress) :
    Res ApInformation :=
  step (select_dp env fuel s access_port.dp) fun _ s =>
  match lookupDp s.st.dps access_port.dp with
  | none => ⟨s, [], Except.error Err.panicUnwrap⟩
  | some state =>
    match state.ap_information.get? access_port.ap with
    | some res => ⟨s, [], Except.ok res⟩
    | none => ⟨s, [], Except.error Err.apDoesNotExist⟩

/-- `num_access_ports` (source lines 522-527). -/
def num_access_ports (fuel : Nat) (env : Env) (s : Sys) (dp : DpAddress) : Res Nat :=
  step (select_dp env fuel s dp) fun _ s =>
  match lookupDp s.st.dps dp with
  | none => ⟨s, [], Except.error Err.panicUnwrap⟩
  | some state => ⟨s, [], Except.ok state.ap_information.length⟩

/-- `memory_interface` (source lines 353-380): look up the AP's cached
classification; only a Memory AP yields a handle, built by the
memory-layer collaborator (`ADIMemoryInterface::new`, an oracle here). -/
def memory_interface (fuel : Nat) (env : Env) (s : Sys) (access_port : ApAddress) :
    Res Unit :=
  step (ap_information fuel env s access_port) fun info s =>
  match info with
  | ApInformation.MemoryAp _ =>
    ⟨s, [Event.collabMemNew access_port.ap], tlift (env.memNew access_port.ap)⟩
  | ApInformation.Other _ => ⟨s, [], Except.error Err.notMemoryAp⟩

/-- The per-AP scan loop of `read_from_rom_table` (source lines 659-695):
read IDR; for a Memory AP compute the base address (collaborator), open a
memory interface, parse the component at the base (collaborator), and
return the first class-1 ROM table carrying a JEDEC code; otherwise
continue with the remaining APs. -/
def romLoop (fuel : Nat) (env : Env) (dp : DpAddress) :
    Sys → List Nat → Res (Option ArmChipInfo)
  | s, [] => ⟨s, [], Except.ok none⟩
  | s, a :: rest =>
    step (read_raw_ap_register fuel env s ⟨dp, a⟩ IDR_ADDR) fun idr s =>
    if idrClassOf idr = memApCode then
      step (⟨s, [Event.collabBase a], tlift (env.baseOf a)⟩ : Res Nat) fun baseaddr s =>
      step (memory_interface fuel env s ⟨dp, a⟩) fun _ s =>
      step (⟨s, [Event.collabParse a baseaddr], tlift (env.parseComp a baseaddr)⟩ : Res Component)
        fun component s =>
      match component with
      | Component.Class1RomTable pid =>
        match pid.jep with
        | some (cc, id) => ⟨s, [], Except.ok (some ⟨cc, id, pid.part⟩)⟩
        | none => romLoop fuel env dp s rest
      | Component.NonRom => romLoop fuel env dp s rest
    else romLoop fuel env dp s rest

/-- `read_from_rom_table` (source lines 640-696): take the collaborator's
valid-AP list, read CTRL/STAT and, if it reports a sticky error, write
ABORT with the sticky-error-clear bit, then scan the APs; no identifiable
ROM table is the success value `none`. -/
def read_from_rom_table (fuel : Nat) (env : Env) (s : Sys) (dp : DpAddress) :
    Res (Option ArmChipInfo) :=
  let aps := env.validAps dp
  step (read_raw_dp_register fuel env s dp CTRL_ADDR) fun ctrl s =>
  step (if stickyErrOf ctrl then
          write_raw_dp_register fuel env s dp ABORT_ADDR abortStkerrclrValue
        else ⟨s, [], Except.ok ()⟩) fun _ s =>
  romLoop fuel env dp s aps

/-- The transport response to an IDR read of AP `a` while the hardware
SELECT register addresses AP `a`, bank 0xF, DP bank 0. -/
def idrReadVal (env : Env) (dp : DpAddress) (a : Nat) : Except Nat Nat :=
  env.readVal (some dp) (encodeSelect a 15 0) PortType.AccessPort IDR_ADDR

/-- The state after the ROM-table loop has selected AP `a` for its IDR
read: the cached AP selection and the hardware SELECT mirror both address
AP `a`, bank 0xF. -/
def afterSel (s : Sys) (dp : DpAddress) (st : DpState) (a : Nat) : Sys :=
  { s with
    st := { s.st with dps := insertDp s.st.dps dp { st with current_apsel := a, current_apbanksel := 15 } }
    dev := { s.dev with sel := encodeSelect a 15 0 } }

/-- AP `a` does not identify the chip but fails benignly: either its IDR
class is not Memory AP, or the class-1-ROM-table/JEDEC condition fails at
the component parse, with every access succeeding. -/
def apSkips (env : Env) (dp : DpAddress) (L : List ApInformation) (a : Nat) : Prop :=
  (∃ v, idrReadVal env dp a = Except.ok v ∧ ¬ idrClassOf v = memApCode) ∨
  (∃ v b i, idrReadVal env dp a = Except.ok v ∧ idrClassOf v = memApCode ∧
    env.baseOf a = Except.ok b ∧
    L.get? a = some (ApInformation.MemoryAp i) ∧
    env.memNew a = Except.ok () ∧
    (env.parseComp a b = Except.ok Component.NonRom ∨
     ∃ pid, env.parseComp a b = Except.ok (Component.Class1RomTable pid) ∧ pid.jep = none))

/-- AP `a` identifies the chip `c`: it is a Memory AP whose parsed
component is a class-1 ROM table with a JEDEC code. -/
def apMatches (env : Env) (dp : DpAddress) (L : List ApInformation) (a : Nat)
    (c : ArmChipInfo) : Prop :=
  ∃ v b i pid, idrReadVal env dp a = Except.ok v ∧ idrClassOf v = memApCode ∧
    env.baseOf a = Except.ok b ∧
    L.get? a = some (ApInformation.MemoryAp i) ∧
    env.memNew a = Except.ok () ∧
    env.parseComp a b = Except.ok (Component.Class1RomTable pid) ∧
    pid.jep = some (c.cc, c.id) ∧ pid.part = c.part

/-- State hypotheses for the ROM-table scan: `dp` is current, discovered
with AP list `L`, DP bank 0 selected, and the hardware SELECT mirror is in
sync with the cache. -/
def RomReady (s : Sys) (dp : DpAddress) (st : DpState) (L : List ApInformation) : Prop :=
  s.st.current_dp = some dp ∧
  s.dev.dp = some dp ∧
  lookupDp s.st.dps dp = some st ∧
  st.ap_information = L ∧
  st.current_dpbanksel = 0 ∧
  s.dev.sel = encodeSelect st.current_apsel st.current_apbanksel 0

/-- Behaviour of a `select_dp` call at lower fuel when the DP is already
current: it is a pure cache hit (or runs out of fuel without acting). -/
def SdpOk (sdp : Sys → DpAddress → Res Unit) : Prop :=
  ∀ s dp, s.st.current_dp = some dp →
    sdp s dp = ⟨s, [], Except.ok ()⟩ ∨ sdp s dp = ⟨s, [], Except.error Err.outOfFuel⟩

/-- The safety invariant of claim C10: whenever a DP is recorded as
current, its `DpState` entry exists, so the internal `unwrap`s after
`select_dp` cannot panic. -/
def Inv (s : Sys) : Prop :=
  ∀ d, s.st.current_dp = some d → (lookupDp s.st.dps d).isSome = true

/-- What the inner operations of an already-selected DP preserve: the
current DP stays selected, no map entry disappears, no physical select-DP
transaction is emitted, and no `unwrap` panics. -/
def Keeps {α : Type} (dp : DpAddress) (s : Sys) (r : Res α) : Prop :=
  r.sys.st.current_dp = some dp ∧
  (∀ d, (lookupDp s.st.dps d).isSome = true → (lookupDp r.sys.st.dps d).isSome = true) ∧
  r.trace.countP Event.isSelDp = 0 ∧
  r.out ≠ Except.error Err.panicUnwrap

/-- Pointwise form of `Keeps` for an operation running from any state in
which `dp` is current and present in the map. -/
def KeepsFn {α : Type} (dp : DpAddress) (g : Sys → Res α) : Prop :=
  ∀ s, s.st.current_dp = some dp → (lookupDp s.st.dps dp).isSome = true →
    Keeps dp s (g s)

/-- Benign transport oracle for witnesses: everything succeeds, reads
return zero, no valid APs. -/
def okEnv : Env :=
  { selectDpRes := fun _ => Except.ok ()
    readVal := fun _ _ _ _ => Except.ok 0
    writeRes := fun _ _ _ => Except.ok ()
    debugPortStartRes := fun _ => Except.ok ()
    validAps := fun _ => []
    baseOf := fun _ => Except.ok 0
    memNew := fun _ => Except.ok ()
    parseComp := fun _ _ => Except.ok Component.NonRom }

/-- Oracle whose raw register writes fail with transport error 7. -/
def failWriteEnv : Env := { okEnv with writeRes := fun _ _ _ => Except.error 7 }

/-- Oracle whose physical select-DP transaction fails with error 3. -/
def failSelEnv : Env := { okEnv with selectDpRes := fun _ => Except.error 3 }

/-- Concrete state: default DP current and already discovered, fresh
selection caches, hardware mirror in sync. -/
def sys0 : Sys :=
  { st := { current_dp := some DpAddress.Default
            dps := [(DpAddress.Default, DpState.new)]
            use_overrun_detect := true }
    dev := { dp := some DpAddress.Default, sel := 0 } }

/-- Concrete state: nothing selected or discovered yet. -/
def sysFresh : Sys :=
  { st := { current_dp := none, dps := [], use_overrun_detect := false }
    dev := { dp := none, sel := 0 } }

/-- Concrete state: default DP current and discovered with one classified
AP (index 0, class Other). -/
def sysAp : Sys :=
  { st := { current_dp := some DpAddress.Default
            dps := [(DpAddress.Default,
              { DpState.new with ap_information := [ApInformation.Other ⟨DpAddress.Default, 0⟩] })]
            use_overrun_detect := true }
    dev := { dp := some DpAddress.Default, sel := 0 } }

/-- Concrete oracle for the C4 witness: a Memory AP (IDR class 8) whose
BASE has the ADIv5 extended format with address bits 0x1000
(BASEADDR field 0x1) and BASE2 = 0x1. -/
def c4Oracle : ApRegOracle :=
  { idrv := Except.ok 0x10000
    basev := Except.ok 0x1002
    base2v := Except.ok 1
    cswOld := Except.ok 0x12345678
    wProbe := Except.ok ()
    cswBack := Except.ok 0
    wRestore := Except.ok () }

/-- Concrete oracle for the C5 witness: a Memory AP with legacy base
format whose post-probe CSW readback no longer shows 8-bit size. -/
def c5Oracle : ApRegOracle :=
  { idrv := Except.ok 0x10000
    basev := Except.ok 0x1000
    base2v := Except.error (Err.transport 9)
    cswOld := Except.ok 0x23000052
    wProbe := Except.ok ()
    cswBack := Except.ok 2
    wRestore := Except.ok () }

/-- Default access-port address used by concrete witnesses. -/
def ap0 : ApAddress := ⟨DpAddress.Default, 0⟩

/-- Oracle whose DP CTRL/STAT read reports a sticky error (bit 5). -/
def stickyEnv : Env :=
  { okEnv with readVal := fun _ _ p a =>
      if p = PortType.DebugPort ∧ a = CTRL_ADDR then Except.ok 32 else Except.ok 0 }

/-- Classified-AP list for the ROM-table witness: AP 0 is not a Memory
AP; APs 1-3 are Memory APs. -/
def romApInfo (n : Nat) : MemoryApInformation :=
  { address := ⟨DpAddress.Default, n⟩
    only_32bit_data_size := false
    debug_base_address := 0x2000
    supports_hnonsec := false }

def romList : List ApInformation :=
  [ApInformation.Other ⟨DpAddress.Default, 0⟩,
   ApInformation.MemoryAp (romApInfo 1),
   ApInformation.MemoryAp (romApInfo 2),
   ApInformation.MemoryAp (romApInfo 3)]

/-- Oracle for the ROM-table witness: four candidate APs; AP 0 reads a
non-Memory IDR class, APs 1-3 read Memory-class IDRs; AP 1 parses to a
non-ROM component, APs 2 and 3 parse to class-1 ROM tables with JEDEC
cc=8, id=0x3B and part 0x1234 — so AP 2 is the first match. -/
def romEnv : Env :=
  { okEnv with
    validAps := fun _ => [0, 1, 2, 3]
    readVal := fun _ sel p _ =>
      if p = PortType.AccessPort then
        (if sel = encodeSelect 0 15 0 then Except.ok 0 else Except.ok 0x10000)
      else Except.ok 0
    baseOf := fun _ => Except.ok 0x2000
    parseComp := fun a _ =>
      if a = 1 then Except.ok Component.NonRom
      else Except.ok (Component.Class1RomTable ⟨some (8, 0x3B), 0x1234⟩) }

/-- State for the ROM-table witness: default DP current and discovered
with the four classified APs of `romList`, caches and SELECT mirror in
sync at zero. -/
def romSys : Sys :=
  { st := { current_dp := some DpAddress.Default
            dps := [(DpAddress.Default,
              { debug_port_version := 0xFF
                current_dpbanksel := 0
                current_apsel := 0
                current_apbanksel := 0
                ap_information := romList })]
            use_overrun_detect := true }
    dev := { dp := some DpAddress.Default, sel := 0 } }

/-! ## Theorems -/

/-! ### Basic lemmas about the embedding -/

theorem step_error {α β : Type} (s : Sys) (tr : List Event) (e : Err)
    (f : α → Sys → Res β) : step ⟨s, tr, Except.error e⟩ f = ⟨s, tr, Except.error e⟩ := rfl

theorem step_ok {α β : Type} (s : Sys) (tr : List Event) (a : α)
    (f : α → Sys → Res β) :
    step ⟨s, tr, Except.ok a⟩ f = ⟨(f a s).sys, tr ++ (f a s).trace, (f a s).out⟩ := rfl

theorem tlift_ne_panic {α : Type} (r : Except Nat α) :
    tlift r ≠ Except.error Err.panicUnwrap := by
  cases r <;> simp [tlift]

theorem lookupDp_insertDp_self (l : List (DpAddress × DpState)) (d : DpAddress)
    (v : DpState) : lookupDp (insertDp l d v) d = some v := by
  induction l with
  | nil => simp [insertDp, lookupDp]
  | cons kv rest ih =>
    obtain ⟨k, w⟩ := kv
    by_cases h : k = d
    · simp [insertDp, lookupDp, h]
    · simp [insertDp, lookupDp, h, ih]

theorem lookupDp_insertDp_ne (l : List (DpAddress × DpState)) (d d' : DpAddress)
    (v : DpState) (h : d ≠ d') : lookupDp (insertDp l d v) d' = lookupDp l d' := by
  induction l with
  | nil => simp [insertDp, lookupDp, h]
  | cons kv rest ih =>
    obtain ⟨k, w⟩ := kv
    by_cases hk : k = d
    · subst hk
      simp [insertDp, lookupDp, h]
    · simp [insertDp, lookupDp, hk, ih]

theorem lookupDp_insertDp_isSome (l : List (DpAddress × DpState)) (d d' : DpAddress)
    (v : DpState) (h : (lookupDp l d').isSome = true) :
    (lookupDp (insertDp l d v) d').isSome = true := by
  by_cases hd : d = d'
  · subst hd
    simp [lookupDp_insertDp_self]
  · rw [lookupDp_insertDp_ne l d d' v hd]
    exact h

theorem insertDp_self (l : List (DpAddress × DpState)) (d : DpAddress) (v : DpState)
    (h : lookupDp l d = some v) : insertDp l d v = l := by
  induction l with
  | nil => simp [lookupDp] at h
  | cons kv rest ih =>
    obtain ⟨k, w⟩ := kv
    by_cases hk : k = d
    · subst hk
      simp [lookupDp] at h
      simp [insertDp, h]
    · simp [lookupDp, hk] at h
      simp [insertDp, hk, ih h]

theorem select_dp_cache_hit (env : Env) (fuel : Nat) (s : Sys) (dp : DpAddress)
    (h : s.st.current_dp = some dp) :
    select_dp env (fuel + 1) s dp = ⟨s, [], Except.ok ()⟩ := by
  simp [select_dp, h]

theorem sdpOk_select_dp (env : Env) (fuel : Nat) :
    SdpOk (fun s' d => select_dp env fuel s' d) := by
  intro s dp h
  cases fuel with
  | zero => right; simp [select_dp]
  | succ f => left; exact select_dp_cache_hit env f s dp h

/-! ### Preservation lemmas for the inner operations

While a DP is current, every inner operation keeps it current, keeps
every existing map entry present, emits no physical select-DP
transaction, and never panics (`Keeps`). -/

theorem keeps_refl {α : Type} (dp : DpAddress) (s : Sys) (out : Except Err α)
    (hc : s.st.current_dp = some dp) (hp : out ≠ Except.error Err.panicUnwrap) :
    Keeps dp s ⟨s, [], out⟩ :=
  ⟨hc, fun _ hd => hd, rfl, hp⟩

theorem keeps_step {α β : Type} {dp : DpAddress} {s : Sys} {r : Res α}
    {f : α → Sys → Res β} (h1 : Keeps dp s r)
    (h2 : ∀ a, r.out = Except.ok a → Keeps dp r.sys (f a r.sys)) :
    Keeps dp s (step r f) := by
  rcases r with ⟨rs, rtr, rout⟩
  cases rout with
  | error e =>
    rw [step_error]
    obtain ⟨hc1, hm1, hn1, hp1⟩ := h1
    have hne : e ≠ Err.panicUnwrap := fun h' => hp1 (by rw [h'])
    refine ⟨hc1, hm1, hn1, fun hcontra => hne ?_⟩
    simpa using hcontra
  | ok a =>
    obtain ⟨_, hm1, hn1, _⟩ := h1
    obtain ⟨hc2, hm2, hn2, hp2⟩ := h2 a rfl
    refine ⟨hc2, fun d hd => hm2 d (hm1 d hd), ?_, hp2⟩
    show (rtr ++ _).countP Event.isSelDp = 0
    rw [List.countP_append, hn1, hn2]

theorem keeps_step_gen {α β : Type} {dp : DpAddress} {s : Sys} {r : Res α}
    {f : α → Sys → Res β} (h1 : Keeps dp s r)
    (h2 : ∀ a s', r.out = Except.ok a → s'.st.current_dp = some dp →
      (∀ d, (lookupDp s.st.dps d).isSome = true → (lookupDp s'.st.dps d).isSome = true) →
      Keeps dp s' (f a s')) :
    Keeps dp s (step r f) :=
  keeps_step h1 (fun a ha => h2 a r.sys ha h1.1 h1.2.1)

theorem keepsFn_sdp {sdp : Sys → DpAddress → Res Unit} {dp : DpAddress}
    (h : SdpOk sdp) : KeepsFn dp (fun s => sdp s dp) := by
  intro s hc hl
  show Keeps dp s (sdp s dp)
  rcases h s dp hc with he | he <;> rw [he]
  · exact keeps_refl dp s (Except.ok ()) hc (by simp)
  · exact keeps_refl dp s (Except.error Err.outOfFuel) hc (by simp)

theorem keeps_rawWriteOp (env : Env) (s : Sys) (port : PortType) (addr v : Nat)
    {dp : DpAddress} (hc : s.st.current_dp = some dp) :
    Keeps dp s (rawWriteOp env s port addr v) := by
  unfold rawWriteOp
  cases hw : env.writeRes port addr v with
  | ok u =>
    simp only [hw]
    exact ⟨hc, fun _ hd => hd, by simp [Event.isSelDp], by simp⟩
  | error e =>
    simp only [hw]
    exact ⟨hc, fun _ hd => hd, by simp [Event.isSelDp], by simp⟩

theorem keeps_rawReadOp (env : Env) (s : Sys) (port : PortType) (addr : Nat)
    {dp : DpAddress} (hc : s.st.current_dp = some dp) :
    Keeps dp s (rawReadOp env s port addr) :=
  ⟨hc, fun _ hd => hd, by simp [rawReadOp, Event.isSelDp], tlift_ne_panic _⟩

theorem rawWriteOp_ok (env : Env) (s : Sys) (port : PortType) (addr v : Nat)
    (hw : env.writeRes port addr v = Except.ok ()) :
    rawWriteOp env s port addr v =
      ⟨{ s with dev := if port = PortType.DebugPort ∧ addr = SELECT_ADDR
                       then { s.dev with sel := v } else s.dev },
       [Event.rawWrite port addr v], Except.ok ()⟩ := by
  unfold rawWriteOp
  rw [hw]

theorem rawWriteOp_err (env : Env) (s : Sys) (port : PortType) (addr v e : Nat)
    (hw : env.writeRes port addr v = Except.error e) :
    rawWriteOp env s port addr v =
      ⟨s, [Event.rawWrite port addr v], Except.error (Err.transport e)⟩ := by
  unfold rawWriteOp
  rw [hw]

theorem writeSelectWith_eq {sdp : Sys → DpAddress → Res Unit} {env : Env} {s : Sys}
    {dp : DpAddress} {st : DpState} (v : Nat)
    (h : sdp s dp = ⟨s, [], Except.ok ()⟩) (hst : lookupDp s.st.dps dp = some st) :
    writeSelectWith sdp env s dp v = rawWriteOp env s PortType.DebugPort SELECT_ADDR v := by
  unfold writeSelectWith
  rw [h, step_ok]
  simp [hst]

theorem sdpb_nonbanked {sdp : Sys → DpAddress → Res Unit} {env : Env} {s : Sys}
    {dp : DpAddress} {st : DpState} (A : Nat)
    (h : sdp s dp = ⟨s, [], Except.ok ()⟩) (hst : lookupDp s.st.dps dp = some st)
    (hA : A % 16 ≠ 4) :
    sdpbWith sdp env s dp A = ⟨s, [], Except.ok ()⟩ := by
  unfold sdpbWith
  rw [h, step_ok]
  simp [hst, hA]

theorem sdpb_same_bank {sdp : Sys → DpAddress → Res Unit} {env : Env} {s : Sys}
    {dp : DpAddress} {st : DpState} (A : Nat)
    (h : sdp s dp = ⟨s, [], Except.ok ()⟩) (hst : lookupDp s.st.dps dp = some st)
    (hA : A % 16 = 4) (hb : A / 16 = st.current_dpbanksel) :
    sdpbWith sdp env s dp A = ⟨s, [], Except.ok ()⟩ := by
  unfold sdpbWith
  rw [h, step_ok]
  simp [hst, hA, hb]

theorem sdpb_new_bank {sdp : Sys → DpAddress → Res Unit} {env : Env} {s : Sys}
    {dp : DpAddress} {st : DpState} (A : Nat)
    (h : sdp s dp = ⟨s, [], Except.ok ()⟩) (hst : lookupDp s.st.dps dp = some st)
    (hA : A % 16 = 4) (hb : ¬ A / 16 = st.current_dpbanksel) :
    sdpbWith sdp env s dp A =
      writeSelectWith sdp env
        { s with st :=
          { s.st with dps := insertDp s.st.dps dp { st with current_dpbanksel := A / 16 } } }
        dp (encodeSelect st.current_apsel st.current_apbanksel (A / 16)) := by
  unfold sdpbWith
  rw [h, step_ok]
  simp [hst, hA, hb]

theorem sapb_cache_hit {sdp : Sys → DpAddress → Res Unit} {env : Env} {s : Sys}
    {ap : ApAddress} {st : DpState} (A : Nat)
    (h : sdp s ap.dp = ⟨s, [], Except.ok ()⟩) (hst : lookupDp s.st.dps ap.dp = some st)
    (h1 : st.current_apsel = ap.ap) (h2 : st.current_apbanksel = A / 16) :
    sapbWith sdp env s ap A = ⟨s, [], Except.ok ()⟩ := by
  unfold sapbWith
  rw [h, step_ok]
  simp [hst, h1, h2]

theorem sapb_cache_miss {sdp : Sys → DpAddress → Res Unit} {env : Env} {s : Sys}
    {ap : ApAddress} {st : DpState} (A : Nat)
    (h : sdp s ap.dp = ⟨s, [], Except.ok ()⟩) (hst : lookupDp s.st.dps ap.dp = some st)
    (hne : ¬ st.current_apsel = ap.ap ∨ ¬ st.current_apbanksel = A / 16) :
    sapbWith sdp env s ap A =
      writeSelectWith sdp env
        { s with st :=
          { s.st with dps := insertDp s.st.dps ap.dp { st with current_apsel := ap.ap, current_apbanksel := A / 16 } } }
        ap.dp (encodeSelect ap.ap (A / 16) st.current_dpbanksel) := by
  unfold sapbWith
  rw [h, step_ok]
  rcases hne with hne | hne <;> simp [hst, hne]

theorem keeps_writeSelectWith (sdp : Sys → DpAddress → Res Unit) (env : Env)
    (dp : DpAddress) (v : Nat) (h : SdpOk sdp) :
    KeepsFn dp (fun s => writeSelectWith sdp env s dp v) := by
  intro s hc hl
  unfold writeSelectWith
  refine keeps_step (keepsFn_sdp h s hc hl) ?_
  intro a _
  have hc' := (keepsFn_sdp h s hc hl).1
  have hl' := (keepsFn_sdp h s hc hl).2.1 dp hl
  obtain ⟨st, hst⟩ := Option.isSome_iff_exists.mp hl'
  simp only [hst]
  exact keeps_rawWriteOp env _ PortType.DebugPort SELECT_ADDR v hc'

theorem keeps_sdpbWith (sdp : Sys → DpAddress → Res Unit) (env : Env)
    (dp : DpAddress) (A : Nat) (h : SdpOk sdp) :
    KeepsFn dp (fun s => sdpbWith sdp env s dp A) := by
  intro s hc hl
  show Keeps dp s (sdpbWith sdp env s dp A)
  rcases h s dp hc with he | he
  case inr =>
    unfold sdpbWith
    rw [he, step_error]
    exact keeps_refl dp s _ hc (by simp)
  case inl =>
  obtain ⟨st, hst⟩ := Option.isSome_iff_exists.mp hl
  by_cases h4 : A % 16 ≠ 4
  · rw [sdpb_nonbanked A he hst h4]
    exact keeps_refl dp s _ hc (by simp)
  · push_neg at h4
    by_cases hb : A / 16 = st.current_dpbanksel
    · rw [sdpb_same_bank A he hst h4 hb]
      exact keeps_refl dp s _ hc (by simp)
    · rw [sdpb_new_bank A he hst h4 hb]
      have hc' : ({ s with st :=
          { s.st with dps := insertDp s.st.dps dp { st with current_dpbanksel := A / 16 } } } :
          Sys).st.current_dp = some dp := hc
      have hl' : (lookupDp ({ s with st :=
          { s.st with dps := insertDp s.st.dps dp { st with current_dpbanksel := A / 16 } } } :
          Sys).st.dps dp).isSome = true := by
        simp [lookupDp_insertDp_self]
      have hw := keeps_writeSelectWith sdp env dp
        (encodeSelect st.current_apsel st.current_apbanksel (A / 16)) h _ hc' hl'
      exact ⟨hw.1, fun d hd => hw.2.1 d (lookupDp_insertDp_isSome _ _ _ _ hd),
        hw.2.2.1, hw.2.2.2⟩

theorem keeps_sapbWith (sdp : Sys → DpAddress → Res Unit) (env : Env)
    (ap : ApAddress) (A : Nat) (h : SdpOk sdp) :
    KeepsFn ap.dp (fun s => sapbWith sdp env s ap A) := by
  intro s hc hl
  show Keeps ap.dp s (sapbWith sdp env s ap A)
  rcases h s ap.dp hc with he | he
  case inr =>
    unfold sapbWith
    rw [he, step_error]
    exact keeps_refl ap.dp s _ hc (by simp)
  case inl =>
  obtain ⟨st, hst⟩ := Option.isSome_iff_exists.mp hl
  by_cases h1 : st.current_apsel = ap.ap
  · by_cases h2 : st.current_apbanksel = A / 16
    · rw [sapb_cache_hit A he hst h1 h2]
      exact keeps_refl ap.dp s _ hc (by simp)
    · rw [sapb_cache_miss A he hst (Or.inr h2)]
      have hc' : ({ s with st :=
          { s.st with dps := insertDp s.st.dps ap.dp { st with current_apsel := ap.ap, current_apbanksel := A / 16 } } } :
          Sys).st.current_dp = some ap.dp := hc
      have hl' : (lookupDp ({ s with st :=
          { s.st with dps := insertDp s.st.dps ap.dp { st with current_apsel := ap.ap, current_apbanksel := A / 16 } } } :
          Sys).st.dps ap.dp).isSome = true := by
        simp [lookupDp_insertDp_self]
      have hw := keeps_writeSelectWith sdp env ap.dp
        (encodeSelect ap.ap (A / 16) st.current_dpbanksel) h _ hc' hl'
      exact ⟨hw.1, fun d hd => hw.2.1 d (lookupDp_insertDp_isSome _ _ _ _ hd),
        hw.2.2.1, hw.2.2.2⟩
  · rw [sapb_cache_miss A he hst (Or.inl h1)]
    have hc' : ({ s with st :=
        { s.st with dps := insertDp s.st.dps ap.dp { st with current_apsel := ap.ap, current_apbanksel := A / 16 } } } :
        Sys).st.current_dp = some ap.dp := hc
    have hl' : (lookupDp ({ s with st :=
        { s.st with dps := insertDp s.st.dps ap.dp { st with current_apsel := ap.ap, current_apbanksel := A / 16 } } } :
        Sys).st.dps ap.dp).isSome = true := by
      simp [lookupDp_insertDp_self]
    have hw := keeps_writeSelectWith sdp env ap.dp
      (encodeSelect ap.ap (A / 16) st.current_dpbanksel) h _ hc' hl'
    exact ⟨hw.1, fun d hd => hw.2.1 d (lookupDp_insertDp_isSome _ _ _ _ hd),
      hw.2.2.1, hw.2.2.2⟩

theorem keepsFn_step {α β : Type} {dp : DpAddress} {g : Sys → Res α}
    {f : α → Sys → Res β} (h1 : KeepsFn dp g) (h2 : ∀ a, KeepsFn dp (f a)) :
    KeepsFn dp (fun s => step (g s) f) := by
  intro s hc hl
  refine keeps_step (h1 s hc hl) ?_
  intro a _
  exact h2 a (g s).sys (h1 s hc hl).1 ((h1 s hc hl).2.1 dp hl)

theorem keepsFn_pure {α : Type} {dp : DpAddress} (out : Except Err α)
    (hp : out ≠ Except.error Err.panicUnwrap) :
    KeepsFn dp (fun s => ⟨s, [], out⟩) :=
  fun s hc _ => keeps_refl dp s out hc hp

theorem keeps_readRawDpWith (sdp : Sys → DpAddress → Res Unit) (env : Env)
    (dp : DpAddress) (A : Nat) (h : SdpOk sdp) :
    KeepsFn dp (fun s => readRawDpWith sdp env s dp A) := by
  intro s hc hl
  show Keeps dp s (readRawDpWith sdp env s dp A)
  unfold readRawDpWith
  refine keeps_step (keeps_sdpbWith sdp env dp A h s hc hl) ?_
  intro a _
  exact keeps_rawReadOp env _ PortType.DebugPort A (keeps_sdpbWith sdp env dp A h s hc hl).1

theorem keeps_writeRawDpWith (sdp : Sys → DpAddress → Res Unit) (env : Env)
    (dp : DpAddress) (A v : Nat) (h : SdpOk sdp) :
    KeepsFn dp (fun s => writeRawDpWith sdp env s dp A v) := by
  intro s hc hl
  show Keeps dp s (writeRawDpWith sdp env s dp A v)
  unfold writeRawDpWith
  refine keeps_step (keeps_sdpbWith sdp env dp A h s hc hl) ?_
  intro a _
  exact keeps_rawWriteOp env _ PortType.DebugPort A v (keeps_sdpbWith sdp env dp A h s hc hl).1

theorem keeps_readRawApWith (sdp : Sys → DpAddress → Res Unit) (env : Env)
    (ap : ApAddress) (A : Nat) (h : SdpOk sdp) :
    KeepsFn ap.dp (fun s => readRawApWith sdp env s ap A) := by
  intro s hc hl
  show Keeps ap.dp s (readRawApWith sdp env s ap A)
  unfold readRawApWith
  refine keeps_step (keeps_sapbWith sdp env ap A h s hc hl) ?_
  intro a _
  exact keeps_rawReadOp env _ PortType.AccessPort A (keeps_sapbWith sdp env ap A h s hc hl).1

theorem keeps_writeRawApWith (sdp : Sys → DpAddress → Res Unit) (env : Env)
    (ap : ApAddress) (A v : Nat) (h : SdpOk sdp) :
    KeepsFn ap.dp (fun s => writeRawApWith sdp env s ap A v) := by
  intro s hc hl
  show Keeps ap.dp s (writeRawApWith sdp env s ap A v)
  unfold writeRawApWith
  refine keeps_step (keeps_sapbWith sdp env ap A h s hc hl) ?_
  intro a _
  exact keeps_rawWriteOp env _ PortType.AccessPort A v (keeps_sapbWith sdp env ap A h s hc hl).1

theorem keeps_read_from_target_via_dap (sdp : Sys → DpAddress → Res Unit) (env : Env)
    (ap : ApAddress) (h : SdpOk sdp) :
    KeepsFn ap.dp (fun s => read_from_target_via_dap sdp env s ap) := by
  unfold read_from_target_via_dap
  refine keepsFn_step (keeps_readRawApWith sdp env ap IDR_ADDR h) ?_
  intro idr
  by_cases hcl : idrClassOf idr = memApCode
  · simp only [if_pos hcl]
    refine keepsFn_step (keeps_readRawApWith sdp env ap BASE_ADDR h) ?_
    intro base
    refine keepsFn_step ?_ ?_
    · by_cases hf : baseFormatIsADIv5 base
      · simp only [if_pos hf]
        exact keepsFn_step (keeps_readRawApWith sdp env ap BASE2_ADDR h)
          (fun b2 => keepsFn_pure _ (by simp))
      · simp only [if_neg hf]
        exact keepsFn_pure _ (by simp)
    · intro high
      refine keepsFn_step (keeps_readRawApWith sdp env ap CSW_ADDR h) ?_
      intro old_csw
      refine keepsFn_step (keeps_writeRawApWith sdp env ap CSW_ADDR cswProbeValue h) ?_
      intro _
      refine keepsFn_step (keeps_readRawApWith sdp env ap CSW_ADDR h) ?_
      intro csw
      refine keepsFn_step (keeps_writeRawApWith sdp env ap CSW_ADDR old_csw h) ?_
      intro _
      exact keepsFn_pure _ (by simp)
  · simp only [if_neg hcl]
    exact keepsFn_pure _ (by simp)

theorem keeps_apScanWith (sdp : Sys → DpAddress → Res Unit) (env : Env)
    (dp : DpAddress) (h : SdpOk sdp) :
    ∀ l : List Nat, KeepsFn dp (fun s => apScanWith sdp env dp s l) := by
  intro l
  induction l with
  | nil =>
    intro s hc hl
    show Keeps dp s (apScanWith sdp env dp s [])
    simp only [apScanWith]
    exact keeps_refl dp s _ hc (by simp)
  | cons a rest ih =>
    intro s hc hl
    show Keeps dp s (apScanWith sdp env dp s (a :: rest))
    simp only [apScanWith]
    refine keeps_step_gen (keeps_read_from_target_via_dap sdp env ⟨dp, a⟩ h s hc hl) ?_
    intro info s' _ hc' hm'
    obtain ⟨st, hst⟩ := Option.isSome_iff_exists.mp (hm' dp hl)
    simp only [hst]
    have hk := ih
      { s' with st := { s'.st with dps := insertDp s'.st.dps dp { st with ap_information := st.ap_information ++ [info] } } }
      hc' (by simp [lookupDp_insertDp_self])
    exact ⟨hk.1, fun d hd => hk.2.1 d (lookupDp_insertDp_isSome _ _ _ _ hd),
      hk.2.2.1, hk.2.2.2⟩

theorem keeps_discoveryWith (sdp : Sys → DpAddress → Res Unit) (env : Env)
    (dp : DpAddress) (h : SdpOk sdp) :
    KeepsFn dp (fun s => discoveryWith sdp env s dp) := by
  intro s hc hl
  show Keeps dp s (discoveryWith sdp env s dp)
  unfold discoveryWith
  refine keeps_step_gen
    ⟨hc, fun _ hd => hd, by simp [debugPortStartOp, Event.isSelDp], tlift_ne_panic _⟩ ?_
  intro _ s1 _ hc1 hm1
  refine keeps_step_gen (keeps_readRawDpWith sdp env dp CTRL_ADDR h s1 hc1 (hm1 dp hl)) ?_
  intro ctrl s2 _ hc2 hm2
  refine keeps_step_gen (keeps_writeRawDpWith sdp env dp CTRL_ADDR
    (setOrunDetect ctrl s2.st.use_overrun_detect) h s2 hc2 (hm2 dp (hm1 dp hl))) ?_
  intro _ s3 _ hc3 hm3
  exact keeps_apScanWith sdp env dp h (env.validAps dp) s3 hc3 (hm3 dp (hm2 dp (hm1 dp hl)))

/-! ### Master lemma for `select_dp` -/

/-- Behaviour of `select_dp` needed by the claims: it preserves the safety
invariant, never panics, on success leaves the requested DP current with
its map entry present, never removes map entries, and a successful
selection from a non-current state emits exactly one physical select-DP
transaction. -/
theorem select_dp_master (env : Env) (fuel : Nat) (s : Sys) (dp : DpAddress) :
    (Inv s → Inv (select_dp env fuel s dp).sys) ∧
    (select_dp env fuel s dp).out ≠ Except.error Err.panicUnwrap ∧
    (Inv s → (select_dp env fuel s dp).out = Except.ok () →
      (select_dp env fuel s dp).sys.st.current_dp = some dp ∧
      (lookupDp (select_dp env fuel s dp).sys.st.dps dp).isSome = true) ∧
    (¬ s.st.current_dp = some dp → (select_dp env fuel s dp).out = Except.ok () →
      (select_dp env fuel s dp).sys.st.current_dp = some dp ∧
      (lookupDp (select_dp env fuel s dp).sys.st.dps dp).isSome = true) ∧
    (∀ d, (lookupDp s.st.dps d).isSome = true →
      (lookupDp (select_dp env fuel s dp).sys.st.dps d).isSome = true) ∧
    (¬ s.st.current_dp = some dp → (select_dp env fuel s dp).out = Except.ok () →
      (select_dp env fuel s dp).trace.countP Event.isSelDp = 1) := by
  cases fuel with
  | zero =>
    simp only [select_dp]
    refine ⟨fun hi => hi, by simp, ?_, ?_, fun d hd => hd, ?_⟩
    · intro _ hok
      simp at hok
    · intro _ hok
      simp at hok
    · intro _ hok
      simp at hok
  | succ f =>
    by_cases hhit : s.st.current_dp = some dp
    · rw [select_dp_cache_hit env f s dp hhit]
      exact ⟨fun hi => hi, by simp, fun hi _ => ⟨hhit, hi dp hhit⟩,
        fun hmiss => absurd hhit hmiss, fun d hd => hd,
        fun hmiss => absurd hhit hmiss⟩
    · cases hsel : env.selectDpRes dp with
      | error e =>
        simp only [select_dp, if_neg hhit, hsel]
        refine ⟨?_, by simp, ?_, ?_, fun d hd => hd, ?_⟩
        · intro _ d hd
          exact absurd hd (by simp)
        · intro _ hok
          simp at hok
        · intro _ hok
          simp at hok
        · intro _ hok
          simp at hok
      | ok u =>
        simp only [select_dp, if_neg hhit, hsel]
        by_cases hseen : (lookupDp s.st.dps dp).isSome = true
        · rw [if_pos hseen]
          refine ⟨?_, by simp, fun _ _ => ⟨rfl, hseen⟩, fun _ _ => ⟨rfl, hseen⟩,
            fun d hd => hd, ?_⟩
          · intro _ d hd
            rw [Option.some.injEq] at hd
            subst hd
            exact hseen
          · intro _ _
            simp [Event.isSelDp]
        · rw [if_neg hseen]
          have hK := keeps_discoveryWith (fun s' d => select_dp env f s' d) env dp
            (sdpOk_select_dp env f)
            { st := { current_dp := some dp
                      dps := insertDp s.st.dps dp DpState.new
                      use_overrun_detect := s.st.use_overrun_detect }
              dev := { s.dev with dp := some dp } }
            rfl (by simp [lookupDp_insertDp_self])
          obtain ⟨hKc, hKm, hKn, hKp⟩ := hK
          refine ⟨?_, hKp, fun _ _ => ⟨hKc, hKm dp (by simp [lookupDp_insertDp_self])⟩,
            fun _ _ => ⟨hKc, hKm dp (by simp [lookupDp_insertDp_self])⟩, ?_, ?_⟩
          · intro _ d hd
            rw [hKc, Option.some.injEq] at hd
            subst hd
            exact hKm dp (by simp [lookupDp_insertDp_self])
          · intro d hd
            exact hKm d (lookupDp_insertDp_isSome _ _ _ _ hd)
          · intro _ _
            show List.countP Event.isSelDp (Event.selectDp dp :: _) = 1
            rw [List.countP_cons]
            simp [Event.isSelDp, hKn]

/-- C8: selecting an already-current DP is a pure cache hit: success with
no state change and no transport events; and when a selection from a
non-current state succeeds, its trace carries exactly one physical
select-DP transaction and an immediately following selection of the same
DP is a cache hit with an empty trace — so selecting the same DP twice in
a row issues exactly one physical select-DP transaction. -/
theorem c8_same_dp_selected_once :
    (∀ env fuel (s : Sys) dp, s.st.current_dp = some dp →
      select_dp env (fuel + 1) s dp = ⟨s, [], Except.ok ()⟩) ∧
    (∀ env fuel fuel2 (s : Sys) dp, ¬ s.st.current_dp = some dp →
      (select_dp env (fuel + 1) s dp).out = Except.ok () →
      (select_dp env (fuel + 1) s dp).trace.countP Event.isSelDp = 1 ∧
      select_dp env (fuel2 + 1) (select_dp env (fuel + 1) s dp).sys dp =
        ⟨(select_dp env (fuel + 1) s dp).sys, [], Except.ok ()⟩) := by
  constructor
  · intro env fuel s dp h
    exact select_dp_cache_hit env fuel s dp h
  · intro env fuel fuel2 s dp hmiss hok
    have M := select_dp_master env (fuel + 1) s dp
    refine ⟨M.2.2.2.2.2 hmiss hok, ?_⟩
    exact select_dp_cache_hit env fuel2 _ dp (M.2.2.2.1 hmiss hok).1

/-- Witness for C8: on the benign oracle, re-selecting the current DP is
the identity, and a first selection from the fresh state emits exactly one
select-DP transaction after which the second call is a silent no-op. -/
theorem c8_same_dp_selected_once_witness :
    select_dp okEnv 1 sys0 DpAddress.Default = ⟨sys0, [], Except.ok ()⟩ ∧
    ((select_dp okEnv 2 sysFresh DpAddress.Default).trace.countP Event.isSelDp = 1 ∧
      select_dp okEnv 1 (select_dp okEnv 2 sysFresh DpAddress.Default).sys DpAddress.Default =
        ⟨(select_dp okEnv 2 sysFresh DpAddress.Default).sys, [], Except.ok ()⟩) :=
  ⟨c8_same_dp_selected_once.1 okEnv 0 sys0 DpAddress.Default rfl,
   c8_same_dp_selected_once.2 okEnv 1 0 sysFresh DpAddress.Default (by decide) (by decide)⟩

/-- C9: when the physical select-DP transaction fails, `select_dp` clears
the cached current DP and propagates the transport error, and the next
`select_dp` call — for any DP, the same one included — takes the slow path
and re-issues a physical select-DP transaction as its first event. -/
theorem c9_failed_select_clears_cache (env env2 : Env) (fuel fuel2 : Nat) (s : Sys)
    (dp dp2 : DpAddress) (e : Nat)
    (hmiss : ¬ s.st.current_dp = some dp)
    (herr : env.selectDpRes dp = Except.error e) :
    select_dp env (fuel + 1) s dp =
      ⟨{ s with st := { s.st with current_dp := none } }, [Event.selectDp dp],
       Except.error (Err.transport e)⟩ ∧
    (select_dp env2 (fuel2 + 1)
        { s with st := { s.st with current_dp := none } } dp2).trace.head? =
      some (Event.selectDp dp2) := by
  constructor
  · simp only [select_dp, if_neg hmiss, herr]
  · have hm2 : ¬ ({ s with st := { s.st with current_dp := none } } : Sys).st.current_dp
        = some dp2 := by simp
    cases hsel : env2.selectDpRes dp2 with
    | error e2 => simp [select_dp, if_neg hm2, hsel]
    | ok u =>
      simp only [select_dp, if_neg hm2, hsel]
      by_cases hseen : (lookupDp ({ s with st := { s.st with current_dp := none } } :
          Sys).st.dps dp2).isSome = true
      · rw [if_pos hseen]
        rfl
      · rw [if_neg hseen]
        rfl

/-- Witness for C9: a failing select transaction on the fresh state clears
the (already empty) cache, reports transport error 3, and the retry leads
with a new physical select transaction. -/
theorem c9_failed_select_clears_cache_witness :
    select_dp failSelEnv 1 sysFresh DpAddress.Default =
      ⟨{ sysFresh with st := { sysFresh.st with current_dp := none } },
       [Event.selectDp DpAddress.Default], Except.error (Err.transport 3)⟩ ∧
    (select_dp failSelEnv 1
        { sysFresh with st := { sysFresh.st with current_dp := none } }
        DpAddress.Default).trace.head? =
      some (Event.selectDp DpAddress.Default) :=
  c9_failed_select_clears_cache failSelEnv failSelEnv 0 0 sysFresh
    DpAddress.Default DpAddress.Default 3 (by decide) rfl

/-- C7: once a DP has a `DpState` entry, `select_dp` never re-runs the
bring-up/discovery scan — the map is left untouched and no
debug-port-start collaborator call is emitted — and a successful
`ap_information` call is idempotent: repeating it returns the identical
cached data from the identical state with an empty trace, so no second
register scan is issued. -/
theorem c7_discovery_at_most_once :
    (∀ env fuel (s : Sys) dp st, lookupDp s.st.dps dp = some st →
      (select_dp env fuel s dp).sys.st.dps = s.st.dps ∧
      (select_dp env fuel s dp).trace.countP Event.isDpStart = 0) ∧
    (∀ env fuel fuel2 (s : Sys) ap s1 tr1 info,
      ap_information fuel env s ap = ⟨s1, tr1, Except.ok info⟩ →
      ap_information (fuel2 + 1) env s1 ap = ⟨s1, [], Except.ok info⟩) := by
  constructor
  · intro env fuel s dp st hst
    cases fuel with
    | zero => exact ⟨rfl, rfl⟩
    | succ f =>
      by_cases hhit : s.st.current_dp = some dp
      · rw [select_dp_cache_hit env f s dp hhit]
        exact ⟨rfl, rfl⟩
      · cases hsel : env.selectDpRes dp with
        | error e =>
          simp only [select_dp, if_neg hhit, hsel]
          exact ⟨by simp, by simp [Event.isDpStart]⟩
        | ok u =>
          have hseen : (lookupDp s.st.dps dp).isSome = true := by
            rw [hst]
            rfl
          simp only [select_dp, if_neg hhit, hsel]
          rw [if_pos hseen]
          exact ⟨by simp, by simp [Event.isDpStart]⟩
  · intro env fuel fuel2 s ap s1 tr1 info h
    rcases hr : select_dp env fuel s ap.dp with ⟨rs, rtr, rout⟩
    unfold ap_information at h
    rw [hr] at h
    cases rout with
    | error e =>
      rw [step_error] at h
      simp at h
    | ok u =>
      cases u
      rw [step_ok] at h
      have hcur : rs.st.current_dp = some ap.dp := by
        cases fuel with
        | zero =>
          simp only [select_dp] at hr
          simp at hr
        | succ f =>
          by_cases hhit : s.st.current_dp = some ap.dp
          · rw [select_dp_cache_hit env f s ap.dp hhit] at hr
            simp only [Res.mk.injEq] at hr
            rw [← hr.1]
            exact hhit
          · have M := (select_dp_master env (f + 1) s ap.dp).2.2.2.1 hhit (by rw [hr])
            rw [hr] at M
            exact M.1
      cases hlk : lookupDp rs.st.dps ap.dp with
      | none =>
        simp only [hlk] at h
        simp at h
      | some state =>
        simp only [hlk] at h
        cases hget : state.ap_information.get? ap.ap with
        | none =>
          simp only [hget] at h
          simp at h
        | some res =>
          simp only [hget] at h
          obtain ⟨hs1, -, hinfo⟩ : rs = s1 ∧ rtr ++ [] = tr1 ∧ res = info := by
            simpa using h
          subst hs1
          subst hinfo
          unfold ap_information
          rw [select_dp_cache_hit env fuel2 rs ap.dp hcur, step_ok]
          simp only [hlk, hget]
          rfl

/-- Witness for C7: a `select_dp` on the already-discovered default DP
leaves the map alone with no bring-up call, and a cached
`ap_information` call repeated returns the identical data silently. -/
theorem c7_discovery_at_most_once_witness :
    ((select_dp okEnv 3 sys0 DpAddress.Default).sys.st.dps = sys0.st.dps ∧
      (select_dp okEnv 3 sys0 DpAddress.Default).trace.countP Event.isDpStart = 0) ∧
    ap_information 1 okEnv sysAp ⟨DpAddress.Default, 0⟩ =
      ⟨sysAp, [], Except.ok (ApInformation.Other ⟨DpAddress.Default, 0⟩)⟩ :=
  ⟨c7_discovery_at_most_once.1 okEnv 3 sys0 DpAddress.Default DpState.new rfl,
   c7_discovery_at_most_once.2 okEnv 1 0 sysAp ⟨DpAddress.Default, 0⟩ sysAp []
     (ApInformation.Other ⟨DpAddress.Default, 0⟩) rfl⟩

theorem sdpb_inv_no_panic (env : Env) (fuel : Nat) (dp : DpAddress) (A : Nat)
    (s : Sys) (hi : Inv s) :
    Inv (select_dp_and_dp_bank fuel env s dp A).sys ∧
    (select_dp_and_dp_bank fuel env s dp A).out ≠ Except.error Err.panicUnwrap := by
  have M := select_dp_master env fuel s dp
  simp only [select_dp_and_dp_bank, sdpbWith]
  rcases hr : select_dp env fuel s dp with ⟨rs, rtr, rout⟩
  rw [hr] at M
  cases rout with
  | error e =>
    rw [step_error]
    exact ⟨M.1 hi, M.2.1⟩
  | ok u =>
    cases u
    rw [step_ok]
    have hc := M.2.2.1 hi rfl
    obtain ⟨st, hst⟩ := Option.isSome_iff_exists.mp hc.2
    simp only [hst]
    by_cases h4 : A % 16 ≠ 4
    · rw [if_pos h4]
      exact ⟨M.1 hi, by simp⟩
    · rw [if_neg h4]
      by_cases hb : A / 16 = st.current_dpbanksel
      · rw [if_pos hb]
        exact ⟨M.1 hi, by simp⟩
      · rw [if_neg hb]
        have hw := keeps_writeSelectWith (fun s' d => select_dp env fuel s' d) env dp
          (encodeSelect st.current_apsel st.current_apbanksel (A / 16))
          (sdpOk_select_dp env fuel)
          { rs with st := { rs.st with dps := insertDp rs.st.dps dp { st with current_dpbanksel := A / 16 } } }
          hc.1 (by simp [lookupDp_insertDp_self])
        refine ⟨?_, hw.2.2.2⟩
        intro d hd
        rw [hw.1, Option.some.injEq] at hd
        subst hd
        exact hw.2.1 _ (by simp [lookupDp_insertDp_self])

theorem sapb_inv_no_panic (env : Env) (fuel : Nat) (ap : ApAddress) (A : Nat)
    (s : Sys) (hi : Inv s) :
    Inv (select_ap_and_ap_bank fuel env s ap A).sys ∧
    (select_ap_and_ap_bank fuel env s ap A).out ≠ Except.error Err.panicUnwrap := by
  have M := select_dp_master env fuel s ap.dp
  simp only [select_ap_and_ap_bank, sapbWith]
  rcases hr : select_dp env fuel s ap.dp with ⟨rs, rtr, rout⟩
  rw [hr] at M
  cases rout with
  | error e =>
    rw [step_error]
    exact ⟨M.1 hi, M.2.1⟩
  | ok u =>
    cases u
    rw [step_ok]
    have hc := M.2.2.1 hi rfl
    obtain ⟨st, hst⟩ := Option.isSome_iff_exists.mp hc.2
    simp only [hst]
    by_cases hch : ¬ st.current_apsel = ap.ap ∨ ¬ st.current_apbanksel = A / 16
    · rw [if_pos hch]
      have hw := keeps_writeSelectWith (fun s' d => select_dp env fuel s' d) env ap.dp
        (encodeSelect ap.ap (A / 16) st.current_dpbanksel)
        (sdpOk_select_dp env fuel)
        { rs with st := { rs.st with dps := insertDp rs.st.dps ap.dp { st with current_apsel := ap.ap, current_apbanksel := A / 16 } } }
        hc.1 (by simp [lookupDp_insertDp_self])
      refine ⟨?_, hw.2.2.2⟩
      intro d hd
      rw [hw.1, Option.some.injEq] at hd
      subst hd
      exact hw.2.1 _ (by simp [lookupDp_insertDp_self])
    · rw [if_neg hch]
      exact ⟨M.1 hi, by simp⟩

theorem ap_information_inv_no_panic (env : Env) (fuel : Nat) (ap : ApAddress)
    (s : Sys) (hi : Inv s) :
    Inv (ap_information fuel env s ap).sys ∧
    (ap_information fuel env s ap).out ≠ Except.error Err.panicUnwrap := by
  have M := select_dp_master env fuel s ap.dp
  unfold ap_information
  rcases hr : select_dp env fuel s ap.dp with ⟨rs, rtr, rout⟩
  rw [hr] at M
  cases rout with
  | error e =>
    rw [step_error]
    have hne : e ≠ Err.panicUnwrap := fun h' => M.2.1 (by rw [h'])
    exact ⟨M.1 hi, fun hcontra => hne (by simpa using hcontra)⟩
  | ok u =>
    cases u
    rw [step_ok]
    have hc := M.2.2.1 hi rfl
    obtain ⟨st, hst⟩ := Option.isSome_iff_exists.mp hc.2
    simp only [hst]
    cases hget : st.ap_information.get? ap.ap with
    | none =>
      simp only [hget]
      exact ⟨M.1 hi, by simp⟩
    | some res =>
      simp only [hget]
      exact ⟨M.1 hi, by simp⟩

theorem num_access_ports_inv_no_panic (env : Env) (fuel : Nat) (dp : DpAddress)
    (s : Sys) (hi : Inv s) :
    Inv (num_access_ports fuel env s dp).sys ∧
    (num_access_ports fuel env s dp).out ≠ Except.error Err.panicUnwrap := by
  have M := select_dp_master env fuel s dp
  unfold num_access_ports
  rcases hr : select_dp env fuel s dp with ⟨rs, rtr, rout⟩
  rw [hr] at M
  cases rout with
  | error e =>
    rw [step_error]
    have hne : e ≠ Err.panicUnwrap := fun h' => M.2.1 (by rw [h'])
    exact ⟨M.1 hi, fun hcontra => hne (by simpa using hcontra)⟩
  | ok u =>
    cases u
    rw [step_ok]
    have hc := M.2.2.1 hi rfl
    obtain ⟨st, hst⟩ := Option.isSome_iff_exists.mp hc.2
    simp only [hst]
    exact ⟨M.1 hi, by simp⟩

/-- C10: the `Initialized` interface maintains the invariant that whenever
`select_dp` has recorded a DP as current — also when it subsequently fails
during bring-up or discovery — the map holds that DP's `DpState`; under
this invariant the `unwrap`ped lookups after `select_dp` inside
`select_dp_and_dp_bank`, `select_ap_and_ap_bank`, `ap_information` and
`num_access_ports` never panic, and every one of these operations
preserves the invariant. -/
theorem c10_current_dp_entry_invariant :
    (∀ env fuel (s : Sys) dp, Inv s →
      Inv (select_dp env fuel s dp).sys ∧
      (select_dp env fuel s dp).out ≠ Except.error Err.panicUnwrap ∧
      ((select_dp env fuel s dp).out = Except.ok () →
        (lookupDp (select_dp env fuel s dp).sys.st.dps dp).isSome = true)) ∧
    (∀ env fuel (s : Sys) dp A, Inv s →
      Inv (select_dp_and_dp_bank fuel env s dp A).sys ∧
      (select_dp_and_dp_bank fuel env s dp A).out ≠ Except.error Err.panicUnwrap) ∧
    (∀ env fuel (s : Sys) ap A, Inv s →
      Inv (select_ap_and_ap_bank fuel env s ap A).sys ∧
      (select_ap_and_ap_bank fuel env s ap A).out ≠ Except.error Err.panicUnwrap) ∧
    (∀ env fuel (s : Sys) ap, Inv s →
      Inv (ap_information fuel env s ap).sys ∧
      (ap_information fuel env s ap).out ≠ Except.error Err.panicUnwrap) ∧
    (∀ env fuel (s : Sys) dp, Inv s →
      Inv (num_access_ports fuel env s dp).sys ∧
      (num_access_ports fuel env s dp).out ≠ Except.error Err.panicUnwrap) := by
  refine ⟨?_, ?_, ?_, ?_, ?_⟩
  · intro env fuel s dp hi
    have M := select_dp_master env fuel s dp
    exact ⟨M.1 hi, M.2.1, fun hok => (M.2.2.1 hi hok).2⟩
  · intro env fuel s dp A hi
    exact sdpb_inv_no_panic env fuel dp A s hi
  · intro env fuel s ap A hi
    exact sapb_inv_no_panic env fuel ap A s hi
  · intro env fuel s ap hi
    exact ap_information_inv_no_panic env fuel ap s hi
  · intro env fuel s dp hi
    exact num_access_ports_inv_no_panic env fuel dp s hi

/-- Witness for C10: the invariant holds of the fresh state and is kept by
a full first selection; the bank-selection operations on the discovered
state do not panic. -/
theorem c10_current_dp_entry_invariant_witness :
    Inv sysFresh ∧
    (Inv (select_dp okEnv 2 sysFresh DpAddress.Default).sys ∧
      (select_dp okEnv 2 sysFresh DpAddress.Default).out ≠ Except.error Err.panicUnwrap) ∧
    (select_dp_and_dp_bank 1 okEnv sys0 DpAddress.Default 0x34).out ≠
      Except.error Err.panicUnwrap ∧
    (select_ap_and_ap_bank 1 okEnv sys0 ⟨DpAddress.Default, 2⟩ 0xFC).out ≠
      Except.error Err.panicUnwrap := by
  have hfresh : Inv sysFresh := by
    intro d hd
    simp [sysFresh] at hd
  have h0 : Inv sys0 := by
    intro d hd
    simp [sys0] at hd
    subst hd
    decide
  have h1 := c10_current_dp_entry_invariant.1 okEnv 2 sysFresh DpAddress.Default hfresh
  have h2 := c10_current_dp_entry_invariant.2.1 okEnv 1 sys0 DpAddress.Default 0x34 h0
  have h3 := c10_current_dp_entry_invariant.2.2.1 okEnv 1 sys0 ⟨DpAddress.Default, 2⟩ 0xFC h0
  exact ⟨hfresh, ⟨h1.1, h1.2.1⟩, h2.2, h3.2⟩

/-- C2: a DP register access to any non-banked address (low nibble other
than 0x4, in particular 0x0/0x8/0xC) and an AP register access whose AP
index and register bank match the cached selection complete with success,
an unchanged state and an empty trace — zero SELECT writes; consequently a
whole sequence of raw DP reads touching only non-banked addresses leaves
the state unchanged and emits no register write at all. -/
theorem c2_non_banked_access_no_select_write :
    (∀ fuel env (s : Sys) dp st A, s.st.current_dp = some dp →
      lookupDp s.st.dps dp = some st → A % 16 ≠ 4 →
      select_dp_and_dp_bank (fuel + 1) env s dp A = ⟨s, [], Except.ok ()⟩) ∧
    (∀ fuel env (s : Sys) ap st A, s.st.current_dp = some ap.dp →
      lookupDp s.st.dps ap.dp = some st →
      st.current_apsel = ap.ap → st.current_apbanksel = A / 16 →
      select_ap_and_ap_bank (fuel + 1) env s ap A = ⟨s, [], Except.ok ()⟩) ∧
    (∀ fuel env (s : Sys) dp st (addrs : List Nat), s.st.current_dp = some dp →
      lookupDp s.st.dps dp = some st → (∀ A ∈ addrs, A % 16 ≠ 4) →
      (runDpReads (fuel + 1) env dp s addrs).sys = s ∧
      ∀ ev ∈ (runDpReads (fuel + 1) env dp s addrs).trace, ev.isWrite = false) := by
  refine ⟨?_, ?_, ?_⟩
  · intro fuel env s dp st A hcur hst hA
    unfold select_dp_and_dp_bank
    exact sdpb_nonbanked A (select_dp_cache_hit env fuel s dp hcur) hst hA
  · intro fuel env s ap st A hcur hst h1 h2
    unfold select_ap_and_ap_bank
    exact sapb_cache_hit A (select_dp_cache_hit env fuel s ap.dp hcur) hst h1 h2
  · intro fuel env s dp st addrs hcur hst
    induction addrs with
    | nil =>
      intro _
      exact ⟨rfl, by intro ev hev; simp [runDpReads] at hev⟩
    | cons A rest ih =>
      intro hall
      have hA := hall A (List.mem_cons_self A rest)
      have hrd : read_raw_dp_register (fuel + 1) env s dp A =
          ⟨s, [Event.rawRead PortType.DebugPort A],
           tlift (env.readVal s.dev.dp s.dev.sel PortType.DebugPort A)⟩ := by
        unfold read_raw_dp_register readRawDpWith
        rw [sdpb_nonbanked A (select_dp_cache_hit env fuel s dp hcur) hst hA, step_ok]
        simp [rawReadOp]
      simp only [runDpReads]
      rw [hrd]
      cases hv : env.readVal s.dev.dp s.dev.sel PortType.DebugPort A with
      | error e =>
        simp only [hv, tlift]
        rw [step_error]
        exact ⟨rfl, by intro ev hev; simp at hev; subst hev; rfl⟩
      | ok v =>
        simp only [hv, tlift]
        rw [step_ok]
        have IH := ih (fun A hA' => hall A (List.mem_cons_of_mem _ hA'))
        refine ⟨IH.1, ?_⟩
        intro ev hev
        rw [List.mem_append] at hev
        rcases hev with hev | hev
        · simp at hev
          subst hev
          rfl
        · exact IH.2 ev hev

/-- Witness for C2: on the discovered state, reads of the non-banked DP
addresses 0x0/0x8/0xC and a cache-matching AP access issue no writes and
leave the state untouched. -/
theorem c2_non_banked_access_no_select_write_witness :
    select_dp_and_dp_bank 1 okEnv sys0 DpAddress.Default 0x8 = ⟨sys0, [], Except.ok ()⟩ ∧
    select_ap_and_ap_bank 1 okEnv sys0 ⟨DpAddress.Default, 0⟩ 0xC = ⟨sys0, [], Except.ok ()⟩ ∧
    ((runDpReads 1 okEnv DpAddress.Default sys0 [0x0, 0x8, 0xC]).sys = sys0 ∧
      ∀ ev ∈ (runDpReads 1 okEnv DpAddress.Default sys0 [0x0, 0x8, 0xC]).trace,
        ev.isWrite = false) :=
  ⟨c2_non_banked_access_no_select_write.1 0 okEnv sys0 DpAddress.Default DpState.new 0x8
     rfl rfl (by decide),
   c2_non_banked_access_no_select_write.2.1 0 okEnv sys0 ⟨DpAddress.Default, 0⟩ DpState.new 0xC
     rfl rfl rfl (by decide),
   c2_non_banked_access_no_select_write.2.2 0 okEnv sys0 DpAddress.Default DpState.new
     [0x0, 0x8, 0xC] rfl rfl (by decide)⟩

/-- Counterexample to C1 as stated: on a concrete run where the SELECT
write fails with a transport error, `select_dp_and_dp_bank` leaves the
cached DP bank holding exactly the value that was attempted (3, changed
from the previous 0) — the selection caches are not invalidated to any
unknown/unselected value. -/
theorem c1_counterexample :
    (select_dp_and_dp_bank 1 failWriteEnv sys0 DpAddress.Default 0x34).out =
      Except.error (Err.transport 7) ∧
    (lookupDp (select_dp_and_dp_bank 1 failWriteEnv sys0 DpAddress.Default 0x34).sys.st.dps
        DpAddress.Default).map DpState.current_dpbanksel = some 3 ∧
    (lookupDp sys0.st.dps DpAddress.Default).map DpState.current_dpbanksel = some 0 := by
  decide

/-- C1 amended: when the SELECT write inside `select_dp_and_dp_bank` or
`select_ap_and_ap_bank` fails with a transport error, the error is
propagated but the cached selection state keeps the value that was
attempted — the cache is updated before the write and is not invalidated
on failure; only `select_dp` clears its cached current DP on a failed
select transaction. -/
theorem c1_select_write_error_keeps_attempted_cache :
    (∀ fuel env (s : Sys) dp st A e, s.st.current_dp = some dp →
      lookupDp s.st.dps dp = some st →
      A % 16 = 4 → ¬ A / 16 = st.current_dpbanksel →
      env.writeRes PortType.DebugPort SELECT_ADDR
        (encodeSelect st.current_apsel st.current_apbanksel (A / 16)) = Except.error e →
      select_dp_and_dp_bank (fuel + 1) env s dp A =
        ⟨{ s with st := { s.st with dps := insertDp s.st.dps dp { st with current_dpbanksel := A / 16 } } },
         [Event.rawWrite PortType.DebugPort SELECT_ADDR
           (encodeSelect st.current_apsel st.current_apbanksel (A / 16))],
         Except.error (Err.transport e)⟩) ∧
    (∀ fuel env (s : Sys) ap st A e, s.st.current_dp = some ap.dp →
      lookupDp s.st.dps ap.dp = some st →
      (¬ st.current_apsel = ap.ap ∨ ¬ st.current_apbanksel = A / 16) →
      env.writeRes PortType.DebugPort SELECT_ADDR
        (encodeSelect ap.ap (A / 16) st.current_dpbanksel) = Except.error e →
      select_ap_and_ap_bank (fuel + 1) env s ap A =
        ⟨{ s with st := { s.st with dps := insertDp s.st.dps ap.dp { st with current_apsel := ap.ap, current_apbanksel := A / 16 } } },
         [Event.rawWrite PortType.DebugPort SELECT_ADDR
           (encodeSelect ap.ap (A / 16) st.current_dpbanksel)],
         Except.error (Err.transport e)⟩) := by
  constructor
  · intro fuel env s dp st A e hcur hst hA hb hw
    unfold select_dp_and_dp_bank
    rw [sdpb_new_bank A (select_dp_cache_hit env fuel s dp hcur) hst hA hb]
    have hcur' : ({ s with st := { s.st with dps := insertDp s.st.dps dp { st with current_dpbanksel := A / 16 } } } : Sys).st.current_dp = some dp := hcur
    rw [writeSelectWith_eq _ (select_dp_cache_hit env fuel _ dp hcur')
      (lookupDp_insertDp_self s.st.dps dp { st with current_dpbanksel := A / 16 })]
    exact rawWriteOp_err env _ PortType.DebugPort SELECT_ADDR _ e hw
  · intro fuel env s ap st A e hcur hst hne hw
    unfold select_ap_and_ap_bank
    rw [sapb_cache_miss A (select_dp_cache_hit env fuel s ap.dp hcur) hst hne]
    have hcur' : ({ s with st := { s.st with dps := insertDp s.st.dps ap.dp { st with current_apsel := ap.ap, current_apbanksel := A / 16 } } } : Sys).st.current_dp = some ap.dp := hcur
    rw [writeSelectWith_eq _ (select_dp_cache_hit env fuel _ ap.dp hcur')
      (lookupDp_insertDp_self s.st.dps ap.dp { st with current_apsel := ap.ap, current_apbanksel := A / 16 })]
    exact rawWriteOp_err env _ PortType.DebugPort SELECT_ADDR _ e hw

/-- Witness for the amended C1: the concrete failing run of the
counterexample follows the amended description for both bank-selection
operations. -/
theorem c1_select_write_error_keeps_attempted_cache_witness :
    select_dp_and_dp_bank 1 failWriteEnv sys0 DpAddress.Default 0x34 =
      ⟨{ sys0 with st := { sys0.st with dps := insertDp sys0.st.dps DpAddress.Default { DpState.new with current_dpbanksel := 3 } } },
       [Event.rawWrite PortType.DebugPort SELECT_ADDR (encodeSelect 0 0 3)],
       Except.error (Err.transport 7)⟩ ∧
    select_ap_and_ap_bank 1 failWriteEnv sys0 ⟨DpAddress.Default, 2⟩ 0xFC =
      ⟨{ sys0 with st := { sys0.st with dps := insertDp sys0.st.dps DpAddress.Default { DpState.new with current_apsel := 2, current_apbanksel := 15 } } },
       [Event.rawWrite PortType.DebugPort SELECT_ADDR (encodeSelect 2 15 0)],
       Except.error (Err.transport 7)⟩ :=
  ⟨c1_select_write_error_keeps_attempted_cache.1 0 failWriteEnv sys0 DpAddress.Default
     DpState.new 0x34 7 rfl rfl (by decide) (by decide) rfl,
   c1_select_write_error_keeps_attempted_cache.2 0 failWriteEnv sys0 ⟨DpAddress.Default, 2⟩
     DpState.new 0xFC 7 rfl rfl (Or.inl (by decide)) rfl⟩

theorem read_from_target_ext_eq
    (o : ApRegOracle) (ap : ApAddress) (idr base c1 c2 b2 : Nat)
    (hidr : o.idrv = Except.ok idr) (hmem : idrClassOf idr = memApCode)
    (hbase : o.basev = Except.ok base) (hf : baseFormatIsADIv5 base = true)
    (hb2 : o.base2v = Except.ok b2)
    (hc1 : o.cswOld = Except.ok c1) (hw1 : o.wProbe = Except.ok ())
    (hc2 : o.cswBack = Except.ok c2) (hw2 : o.wRestore = Except.ok ()) :
    read_from_target o ap =
      ⟨[BEvent.readAp IDR_ADDR, BEvent.readAp BASE_ADDR, BEvent.readAp BASE2_ADDR,
        BEvent.readAp CSW_ADDR, BEvent.writeAp CSW_ADDR cswProbeValue,
        BEvent.readAp CSW_ADDR, BEvent.writeAp CSW_ADDR c1],
       Except.ok (ApInformation.MemoryAp
        { address := ap
          only_32bit_data_size := decide (cswSizeOf c2 ≠ 0)
          debug_base_address :=
            Nat.lor (base2addrOf b2 * 2 ^ 32) (baseaddrOf base * 2 ^ 12 % 2 ^ 32)
          supports_hnonsec := decide (cswHnonsecOf c2 = 1) })⟩ := by
  simp [read_from_target, bstep, bread, bwrite, hidr, hmem, hbase, hb2,
    hc1, hw1, hc2, hw2, hf]

theorem read_from_target_legacy_eq
    (o : ApRegOracle) (ap : ApAddress) (idr base c1 c2 : Nat)
    (hidr : o.idrv = Except.ok idr) (hmem : idrClassOf idr = memApCode)
    (hbase : o.basev = Except.ok base) (hf : baseFormatIsADIv5 base = false)
    (hc1 : o.cswOld = Except.ok c1) (hw1 : o.wProbe = Except.ok ())
    (hc2 : o.cswBack = Except.ok c2) (hw2 : o.wRestore = Except.ok ()) :
    read_from_target o ap =
      ⟨[BEvent.readAp IDR_ADDR, BEvent.readAp BASE_ADDR,
        BEvent.readAp CSW_ADDR, BEvent.writeAp CSW_ADDR cswProbeValue,
        BEvent.readAp CSW_ADDR, BEvent.writeAp CSW_ADDR c1],
       Except.ok (ApInformation.MemoryAp
        { address := ap
          only_32bit_data_size := decide (cswSizeOf c2 ≠ 0)
          debug_base_address := Nat.lor 0 (baseaddrOf base * 2 ^ 12 % 2 ^ 32)
          supports_hnonsec := decide (cswHnonsecOf c2 = 1) })⟩ := by
  simp [read_from_target, bstep, bread, bwrite, hidr, hmem, hbase,
    hc1, hw1, hc2, hw2, hf]

/-- C4: for every Memory AP, classification assembles the debug base
address as (BASE2's BASEADDR field shifted left 32 bits) OR (BASE's
BASEADDR field shifted left 12 bits, as a 32-bit value), and BASE2 is read
exactly in the ADIv5 extended-format case: in the extended case the trace
contains the BASE2 read, otherwise it does not. -/
theorem c4_debug_base_address_assembly
    (o : ApRegOracle) (ap : ApAddress) (idr base c1 c2 : Nat)
    (hidr : o.idrv = Except.ok idr) (hmem : idrClassOf idr = memApCode)
    (hbase : o.basev = Except.ok base)
    (hc1 : o.cswOld = Except.ok c1) (hw1 : o.wProbe = Except.ok ())
    (hc2 : o.cswBack = Except.ok c2) (hw2 : o.wRestore = Except.ok ()) :
    (∀ b2, baseFormatIsADIv5 base = true → o.base2v = Except.ok b2 →
      read_from_target o ap =
        ⟨[BEvent.readAp IDR_ADDR, BEvent.readAp BASE_ADDR, BEvent.readAp BASE2_ADDR,
          BEvent.readAp CSW_ADDR, BEvent.writeAp CSW_ADDR cswProbeValue,
          BEvent.readAp CSW_ADDR, BEvent.writeAp CSW_ADDR c1],
         Except.ok (ApInformation.MemoryAp
          { address := ap
            only_32bit_data_size := decide (cswSizeOf c2 ≠ 0)
            debug_base_address :=
              Nat.lor (base2addrOf b2 * 2 ^ 32) (baseaddrOf base * 2 ^ 12 % 2 ^ 32)
            supports_hnonsec := decide (cswHnonsecOf c2 = 1) })⟩ ∧
      BEvent.readAp BASE2_ADDR ∈ (read_from_target o ap).trace) ∧
    (baseFormatIsADIv5 base = false →
      read_from_target o ap =
        ⟨[BEvent.readAp IDR_ADDR, BEvent.readAp BASE_ADDR,
          BEvent.readAp CSW_ADDR, BEvent.writeAp CSW_ADDR cswProbeValue,
          BEvent.readAp CSW_ADDR, BEvent.writeAp CSW_ADDR c1],
         Except.ok (ApInformation.MemoryAp
          { address := ap
            only_32bit_data_size := decide (cswSizeOf c2 ≠ 0)
            debug_base_address := Nat.lor 0 (baseaddrOf base * 2 ^ 12 % 2 ^ 32)
            supports_hnonsec := decide (cswHnonsecOf c2 = 1) })⟩ ∧
      BEvent.readAp BASE2_ADDR ∉ (read_from_target o ap).trace) := by
  constructor
  · intro b2 hf hb2
    have h := read_from_target_ext_eq o ap idr base c1 c2 b2
      hidr hmem hbase hf hb2 hc1 hw1 hc2 hw2
    exact ⟨h, by rw [h]; simp [IDR_ADDR, BASE_ADDR, BASE2_ADDR, CSW_ADDR]⟩
  · intro hf
    have h := read_from_target_legacy_eq o ap idr base c1 c2
      hidr hmem hbase hf hc1 hw1 hc2 hw2
    exact ⟨h, by rw [h]; simp [IDR_ADDR, BASE_ADDR, BASE2_ADDR, CSW_ADDR]⟩

/-- Witness for C4: with BASE2 = 0x1 and BASE address bits 0x1000
(BASEADDR field 0x1, flag bits aside), the derived debug base address is
0x1_0000_1000, and BASE2 was read. -/
theorem c4_debug_base_address_assembly_witness :
    (read_from_target c4Oracle ap0).out =
      Except.ok (ApInformation.MemoryAp ⟨ap0, false, 0x100001000, false⟩) ∧
    BEvent.readAp BASE2_ADDR ∈ (read_from_target c4Oracle ap0).trace := by
  have h := (c4_debug_base_address_assembly c4Oracle ap0 0x10000 0x1002 0x12345678 0
    rfl (by decide) rfl rfl rfl rfl rfl).1 1 (by decide) rfl
  refine ⟨?_, ?_⟩
  · rw [h.1]; decide
  · exact h.2

/-- C5: for every Memory AP, classification's only CSW writes are the
8-bit probe value followed by exactly the CSW value read before probing
(so the AP's CSW after classification is bit-for-bit its value before),
and `only_32bit_data_size` / `supports_hnonsec` are derived from the
post-probe CSW readback, not from the requested write. -/
theorem c5_csw_probe_and_restore
    (o : ApRegOracle) (ap : ApAddress) (idr base c1 c2 : Nat)
    (hidr : o.idrv = Except.ok idr) (hmem : idrClassOf idr = memApCode)
    (hbase : o.basev = Except.ok base)
    (hb2 : baseFormatIsADIv5 base = true → ∃ b2, o.base2v = Except.ok b2)
    (hc1 : o.cswOld = Except.ok c1) (hw1 : o.wProbe = Except.ok ())
    (hc2 : o.cswBack = Except.ok c2) (hw2 : o.wRestore = Except.ok ()) :
    (read_from_target o ap).trace.filter BEvent.isWriteB =
      [BEvent.writeAp CSW_ADDR cswProbeValue, BEvent.writeAp CSW_ADDR c1] ∧
    ∃ i, (read_from_target o ap).out = Except.ok (ApInformation.MemoryAp i) ∧
      i.only_32bit_data_size = decide (cswSizeOf c2 ≠ 0) ∧
      i.supports_hnonsec = decide (cswHnonsecOf c2 = 1) := by
  rcases hfmt : baseFormatIsADIv5 base with _ | _
  · have h := read_from_target_legacy_eq o ap idr base c1 c2
      hidr hmem hbase hfmt hc1 hw1 hc2 hw2
    rw [h]
    exact ⟨by simp [BEvent.isWriteB], _, rfl, rfl, rfl⟩
  · obtain ⟨b2, hb2v⟩ := hb2 hfmt
    have h := read_from_target_ext_eq o ap idr base c1 c2 b2
      hidr hmem hbase hfmt hb2v hc1 hw1 hc2 hw2
    rw [h]
    exact ⟨by simp [BEvent.isWriteB], _, rfl, rfl, rfl⟩

/-- Witness for C5: on a concrete oracle the two CSW writes are the probe
value and then the originally-read CSW 0x23000052 verbatim, and the flags
come from the readback value 2 (not 8-bit, HNONSEC unsupported). -/
theorem c5_csw_probe_and_restore_witness :
    (read_from_target c5Oracle ap0).trace.filter BEvent.isWriteB =
      [BEvent.writeAp CSW_ADDR cswProbeValue, BEvent.writeAp CSW_ADDR 0x23000052] ∧
    ∃ i, (read_from_target c5Oracle ap0).out = Except.ok (ApInformation.MemoryAp i) ∧
      i.only_32bit_data_size = decide (cswSizeOf 2 ≠ 0) ∧
      i.supports_hnonsec = decide (cswHnonsecOf 2 = 1) :=
  c5_csw_probe_and_restore c5Oracle ap0 0x10000 0x1000 0x23000052 2
    rfl (by decide) rfl (by intro h; exact absurd h (by decide)) rfl rfl rfl rfl

/-! ### ROM-table scan theorems (C3, C6) -/

theorem ctrl_read_eq (env : Env) (fuel : Nat) (s : Sys) (dp : DpAddress) (st : DpState)
    (v : Nat) (hcur : s.st.current_dp = some dp) (hst : lookupDp s.st.dps dp = some st)
    (hdpb : st.current_dpbanksel = 0)
    (hctrl : env.readVal s.dev.dp s.dev.sel PortType.DebugPort CTRL_ADDR = Except.ok v) :
    read_raw_dp_register (fuel + 1) env s dp CTRL_ADDR =
      ⟨s, [Event.rawRead PortType.DebugPort CTRL_ADDR], Except.ok v⟩ := by
  unfold read_raw_dp_register readRawDpWith
  rw [sdpb_same_bank CTRL_ADDR (select_dp_cache_hit env fuel s dp hcur) hst (by decide)
    (by rw [hdpb]; decide), step_ok]
  simp [rawReadOp, hctrl, tlift]

/-- C3: on a discovered DP whose CTRL/STAT read reports a sticky error,
`read_from_rom_table`'s trace begins with the CTRL/STAT read followed
immediately by the ABORT write carrying the sticky-error-clear value —
both DP accesses — so the ABORT write is issued before any AP register
read of the scan. -/
theorem c3_sticky_error_cleared_before_scan
    (env : Env) (fuel : Nat) (s : Sys) (dp : DpAddress) (st : DpState) (v : Nat)
    (hcur : s.st.current_dp = some dp) (hst : lookupDp s.st.dps dp = some st)
    (hdpb : st.current_dpbanksel = 0)
    (hctrl : env.readVal s.dev.dp s.dev.sel PortType.DebugPort CTRL_ADDR = Except.ok v)
    (hsticky : stickyErrOf v = true) :
    ∃ t, (read_from_rom_table (fuel + 1) env s dp).trace =
      Event.rawRead PortType.DebugPort CTRL_ADDR ::
      Event.rawWrite PortType.DebugPort ABORT_ADDR abortStkerrclrValue :: t := by
  unfold read_from_rom_table
  rw [ctrl_read_eq env fuel s dp st v hcur hst hdpb hctrl, step_ok, hsticky]
  have hab : sdpbWith (fun s' d => select_dp env (fuel + 1) s' d) env s dp ABORT_ADDR =
      ⟨s, [], Except.ok ()⟩ :=
    sdpb_nonbanked ABORT_ADDR (select_dp_cache_hit env fuel s dp hcur) hst (by decide)
  unfold write_raw_dp_register writeRawDpWith
  rw [if_pos rfl, hab, step_ok]
  cases hw : env.writeRes PortType.DebugPort ABORT_ADDR abortStkerrclrValue with
  | error e =>
    rw [rawWriteOp_err env s PortType.DebugPort ABORT_ADDR abortStkerrclrValue e hw,
      step_error]
    exact ⟨[], rfl⟩
  | ok u =>
    cases u
    rw [rawWriteOp_ok env s PortType.DebugPort ABORT_ADDR abortStkerrclrValue hw]
    rw [if_neg (by decide), step_ok]
    exact ⟨_, rfl⟩

theorem memory_interface_cached (env : Env) (fuel : Nat) (s : Sys) (ap : ApAddress)
    (st : DpState) (i : MemoryApInformation)
    (hcur : s.st.current_dp = some ap.dp)
    (hst : lookupDp s.st.dps ap.dp = some st)
    (hi : st.ap_information.get? ap.ap = some (ApInformation.MemoryAp i)) :
    memory_interface (fuel + 1) env s ap =
      ⟨s, [Event.collabMemNew ap.ap], tlift (env.memNew ap.ap)⟩ := by
  have hai : ap_information (fuel + 1) env s ap =
      ⟨s, [], Except.ok (ApInformation.MemoryAp i)⟩ := by
    unfold ap_information
    rw [select_dp_cache_hit env fuel s ap.dp hcur, step_ok]
    simp only [hst, hi]
    rfl
  unfold memory_interface
  rw [hai, step_ok]
  rfl

theorem sapb_idr_select (env : Env) (fuel : Nat) (s : Sys) (dp : DpAddress)
    (st : DpState) (a : Nat)
    (hcur : s.st.current_dp = some dp) (hst : lookupDp s.st.dps dp = some st)
    (hdpb : st.current_dpbanksel = 0)
    (hsel : s.dev.sel = encodeSelect st.current_apsel st.current_apbanksel 0)
    (hwr : ∀ p A v, env.writeRes p A v = Except.ok ()) :
    ∃ tr, sapbWith (fun s' d => select_dp env (fuel + 1) s' d) env s ⟨dp, a⟩ IDR_ADDR =
      ⟨afterSel s dp st a, tr, Except.ok ()⟩ := by
  have hhit := select_dp_cache_hit env fuel s dp hcur
  by_cases hb : st.current_apsel = a ∧ st.current_apbanksel = 15
  · refine ⟨[], ?_⟩
    rw [sapb_cache_hit IDR_ADDR hhit hst hb.1 (by rw [hb.2]; decide)]
    have hstq : ({ st with current_apsel := a, current_apbanksel := 15 } : DpState) = st := by
      rw [← hb.1, ← hb.2]
    have hdps : insertDp s.st.dps dp { st with current_apsel := a, current_apbanksel := 15 }
        = s.st.dps := by
      rw [hstq]
      exact insertDp_self _ _ _ hst
    have hdev : encodeSelect a 15 0 = s.dev.sel := by
      rw [hsel, hb.1, hb.2]
    unfold afterSel
    rw [hdps, hdev]
  · have hne : ¬ st.current_apsel = a ∨ ¬ st.current_apbanksel = IDR_ADDR / 16 := by
      rcases not_and_or.mp hb with h | h
      · exact Or.inl h
      · exact Or.inr (by simpa using h)
    refine ⟨[Event.rawWrite PortType.DebugPort SELECT_ADDR
      (encodeSelect a (IDR_ADDR / 16) st.current_dpbanksel)], ?_⟩
    rw [sapb_cache_miss IDR_ADDR hhit hst hne]
    have hcur' : ({ s with st := { s.st with dps := insertDp s.st.dps dp { st with current_apsel := a, current_apbanksel := IDR_ADDR / 16 } } } : Sys).st.current_dp = some dp := hcur
    rw [writeSelectWith_eq _ (select_dp_cache_hit env fuel _ dp hcur')
      (lookupDp_insertDp_self s.st.dps dp _)]
    rw [rawWriteOp_ok env _ PortType.DebugPort SELECT_ADDR _ (hwr _ _ _)]
    rw [if_pos ⟨rfl, rfl⟩]
    unfold afterSel
    rw [hdpb]
    rfl

theorem read_idr_eq (env : Env) (fuel : Nat) (s : Sys) (dp : DpAddress)
    (st : DpState) (a : Nat)
    (hcur : s.st.current_dp = some dp) (hdev : s.dev.dp = some dp)
    (hst : lookupDp s.st.dps dp = some st)
    (hdpb : st.current_dpbanksel = 0)
    (hsel : s.dev.sel = encodeSelect st.current_apsel st.current_apbanksel 0)
    (hwr : ∀ p A v, env.writeRes p A v = Except.ok ()) :
    ∃ tr, read_raw_ap_register (fuel + 1) env s ⟨dp, a⟩ IDR_ADDR =
      ⟨afterSel s dp st a, tr, tlift (idrReadVal env dp a)⟩ := by
  obtain ⟨tr0, htr⟩ := sapb_idr_select env fuel s dp st a hcur hst hdpb hsel hwr
  refine ⟨tr0 ++ [Event.rawRead PortType.AccessPort IDR_ADDR], ?_⟩
  unfold read_raw_ap_register readRawApWith
  rw [htr, step_ok]
  simp [rawReadOp, afterSel, idrReadVal, hdev]

theorem afterSel_ready (s : Sys) (dp : DpAddress) (st : DpState) (a : Nat)
    (L : List ApInformation) (h : RomReady s dp st L) :
    RomReady (afterSel s dp st a) dp
      { st with current_apsel := a, current_apbanksel := 15 } L := by
  obtain ⟨hcur, hdev, hst, hL, hdpb, hsel⟩ := h
  exact ⟨hcur, hdev, by simp [afterSel, lookupDp_insertDp_self], by simpa using hL,
    by simpa using hdpb, rfl⟩

theorem romLoop_skip_step (env : Env) (fuel : Nat) (s : Sys) (dp : DpAddress)
    (st : DpState) (L : List ApInformation) (a : Nat)
    (hready : RomReady s dp st L)
    (hwr : ∀ p A v, env.writeRes p A v = Except.ok ())
    (hskip : apSkips env dp L a) :
    ∃ pre, ∀ rest, romLoop (fuel + 1) env dp s (a :: rest) =
      ⟨(romLoop (fuel + 1) env dp (afterSel s dp st a) rest).sys,
       pre ++ (romLoop (fuel + 1) env dp (afterSel s dp st a) rest).trace,
       (romLoop (fuel + 1) env dp (afterSel s dp st a) rest).out⟩ := by
  obtain ⟨hcur, hdev, hst, hL, hdpb, hsel⟩ := hready
  obtain ⟨tr1, hread⟩ := read_idr_eq env fuel s dp st a hcur hdev hst hdpb hsel hwr
  rcases hskip with ⟨v, hv, hcl⟩ | ⟨v, b, i, hv, hcl, hb, hLi, hmn, hpar⟩
  · refine ⟨tr1, fun rest => ?_⟩
    simp only [romLoop]
    rw [hread]
    simp only [hv, tlift]
    rw [step_ok, if_neg hcl]
  · have hst' : lookupDp (afterSel s dp st a).st.dps dp =
        some { st with current_apsel := a, current_apbanksel := 15 } := by
      simp [afterSel, lookupDp_insertDp_self]
    have hi' : ({ st with current_apsel := a, current_apbanksel := 15 } :
        DpState).ap_information.get? a = some (ApInformation.MemoryAp i) := by
      show st.ap_information.get? a = some (ApInformation.MemoryAp i)
      rw [hL]
      exact hLi
    refine ⟨tr1 ++ [Event.collabBase a] ++ [Event.collabMemNew a] ++ [Event.collabParse a b],
      fun rest => ?_⟩
    simp only [romLoop]
    rw [hread]
    simp only [hv, tlift]
    rw [step_ok, if_pos hcl]
    rw [hb]
    simp only [tlift]
    rw [step_ok]
    rw [memory_interface_cached env fuel (afterSel s dp st a) ⟨dp, a⟩
      { st with current_apsel := a, current_apbanksel := 15 } i hcur hst' hi']
    rw [hmn]
    simp only [tlift]
    rw [step_ok]
    rcases hpar with hpar | ⟨pid, hpar, hjep⟩
    · rw [hpar]
      simp only [tlift]
      rw [step_ok]
      simp [List.append_assoc]
    · rw [hpar]
      simp only [tlift]
      rw [step_ok]
      simp [hjep, List.append_assoc]

theorem romLoop_match_step (env : Env) (fuel : Nat) (s : Sys) (dp : DpAddress)
    (st : DpState) (L : List ApInformation) (a : Nat) (c : ArmChipInfo)
    (hready : RomReady s dp st L)
    (hwr : ∀ p A v, env.writeRes p A v = Except.ok ())
    (hmatch : apMatches env dp L a c) :
    ∃ pre, ∀ rest, romLoop (fuel + 1) env dp s (a :: rest) =
      ⟨afterSel s dp st a, pre, Except.ok (some c)⟩ := by
  obtain ⟨hcur, hdev, hst, hL, hdpb, hsel⟩ := hready
  obtain ⟨tr1, hread⟩ := read_idr_eq env fuel s dp st a hcur hdev hst hdpb hsel hwr
  obtain ⟨v, b, i, pid, hv, hcl, hb, hLi, hmn, hpar, hjep, hpart⟩ := hmatch
  have hst' : lookupDp (afterSel s dp st a).st.dps dp =
      some { st with current_apsel := a, current_apbanksel := 15 } := by
    simp [afterSel, lookupDp_insertDp_self]
  have hi' : ({ st with current_apsel := a, current_apbanksel := 15 } :
      DpState).ap_information.get? a = some (ApInformation.MemoryAp i) := by
    show st.ap_information.get? a = some (ApInformation.MemoryAp i)
    rw [hL]
    exact hLi
  refine ⟨tr1 ++ [Event.collabBase a] ++ [Event.collabMemNew a] ++ [Event.collabParse a b],
    fun rest => ?_⟩
  simp only [romLoop]
  rw [hread]
  simp only [hv, tlift]
  rw [step_ok, if_pos hcl]
  rw [hb]
  simp only [tlift]
  rw [step_ok]
  rw [memory_interface_cached env fuel (afterSel s dp st a) ⟨dp, a⟩
    { st with current_apsel := a, current_apbanksel := 15 } i hcur hst' hi']
  rw [hmn]
  simp only [tlift]
  rw [step_ok]
  rw [hpar]
  simp only [tlift]
  rw [step_ok]
  simp [hjep, hpart, List.append_assoc]

theorem romLoop_first_match (env : Env) (fuel : Nat) (dp : DpAddress) (j : Nat)
    (c : ArmChipInfo) (hwr : ∀ p A v, env.writeRes p A v = Except.ok ()) :
    ∀ (pre : List Nat) (s : Sys) (st : DpState) (L : List ApInformation),
      RomReady s dp st L → (∀ a ∈ pre, apSkips env dp L a) → apMatches env dp L j c →
      ∃ s' tr, ∀ post, romLoop (fuel + 1) env dp s (pre ++ j :: post) =
        ⟨s', tr, Except.ok (some c)⟩ := by
  intro pre
  induction pre with
  | nil =>
    intro s st L hready _ hmatch
    obtain ⟨tr, h⟩ := romLoop_match_step env fuel s dp st L j c hready hwr hmatch
    exact ⟨afterSel s dp st j, tr, fun post => h post⟩
  | cons a pre ih =>
    intro s st L hready hskips hmatch
    obtain ⟨pre1, h1⟩ := romLoop_skip_step env fuel s dp st L a hready hwr
      (hskips a (List.mem_cons_self a pre))
    obtain ⟨s', tr, h2⟩ := ih (afterSel s dp st a)
      { st with current_apsel := a, current_apbanksel := 15 } L
      (afterSel_ready s dp st a L hready)
      (fun a' ha' => hskips a' (List.mem_cons_of_mem _ ha')) hmatch
    refine ⟨s', pre1 ++ tr, fun post => ?_⟩
    rw [List.cons_append, h1 (pre ++ j :: post), h2 post]

theorem romLoop_all_skip (env : Env) (fuel : Nat) (dp : DpAddress)
    (hwr : ∀ p A v, env.writeRes p A v = Except.ok ()) :
    ∀ (aps : List Nat) (s : Sys) (st : DpState) (L : List ApInformation),
      RomReady s dp st L → (∀ a ∈ aps, apSkips env dp L a) →
      (romLoop (fuel + 1) env dp s aps).out = Except.ok none := by
  intro aps
  induction aps with
  | nil =>
    intro s st L _ _
    rfl
  | cons a rest ih =>
    intro s st L hready hskips
    obtain ⟨pre1, h1⟩ := romLoop_skip_step env fuel s dp st L a hready hwr
      (hskips a (List.mem_cons_self a rest))
    rw [h1 rest]
    exact ih (afterSel s dp st a) _ L (afterSel_ready s dp st a L hready)
      (fun a' ha' => hskips a' (List.mem_cons_of_mem _ ha'))

theorem rom_table_prelude (env : Env) (fuel : Nat) (s : Sys) (dp : DpAddress)
    (st : DpState) (v : Nat)
    (hcur : s.st.current_dp = some dp) (hst : lookupDp s.st.dps dp = some st)
    (hdpb : st.current_dpbanksel = 0)
    (hctrl : env.readVal s.dev.dp s.dev.sel PortType.DebugPort CTRL_ADDR = Except.ok v)
    (hns : stickyErrOf v = false) :
    read_from_rom_table (fuel + 1) env s dp =
      ⟨(romLoop (fuel + 1) env dp s (env.validAps dp)).sys,
       Event.rawRead PortType.DebugPort CTRL_ADDR ::
         (romLoop (fuel + 1) env dp s (env.validAps dp)).trace,
       (romLoop (fuel + 1) env dp s (env.validAps dp)).out⟩ := by
  unfold read_from_rom_table
  rw [ctrl_read_eq env fuel s dp st v hcur hst hdpb hctrl, step_ok, hns]
  rw [if_neg (by simp), step_ok]
  rfl

/-- C6: `read_from_rom_table` returns `some` chip identity for the first
AP in enumeration order that is a Memory AP parsing to a class-1 ROM table
with a recognized JEDEC code — and the loop's behaviour on
`pre ++ j :: post` is the same triple for every `post`, so no AP after the
match is read; and when every AP fails benignly to match, the scan
returns the success value `none`, not an error. -/
theorem c6_first_matching_ap_wins :
    (∀ env fuel (s : Sys) dp st L v (pre : List Nat) j post c,
      RomReady s dp st L →
      (∀ p A w, env.writeRes p A w = Except.ok ()) →
      env.readVal s.dev.dp s.dev.sel PortType.DebugPort CTRL_ADDR = Except.ok v →
      stickyErrOf v = false →
      env.validAps dp = pre ++ j :: post →
      (∀ a ∈ pre, apSkips env dp L a) →
      apMatches env dp L j c →
      (read_from_rom_table (fuel + 1) env s dp).out = Except.ok (some c) ∧
      ∃ s' tr, ∀ post', romLoop (fuel + 1) env dp s (pre ++ j :: post') =
        ⟨s', tr, Except.ok (some c)⟩) ∧
    (∀ env fuel (s : Sys) dp st L v,
      RomReady s dp st L →
      (∀ p A w, env.writeRes p A w = Except.ok ()) →
      env.readVal s.dev.dp s.dev.sel PortType.DebugPort CTRL_ADDR = Except.ok v →
      stickyErrOf v = false →
      (∀ a ∈ env.validAps dp, apSkips env dp L a) →
      (read_from_rom_table (fuel + 1) env s dp).out = Except.ok none) := by
  constructor
  · intro env fuel s dp st L v pre j post c hready hwr hctrl hns hvalid hskips hmatch
    obtain ⟨s', tr, hloop⟩ := romLoop_first_match env fuel dp j c hwr pre s st L
      hready hskips hmatch
    refine ⟨?_, s', tr, hloop⟩
    rw [rom_table_prelude env fuel s dp st v hready.1 hready.2.2.1 hready.2.2.2.2.1
      hctrl hns]
    show (romLoop (fuel + 1) env dp s (env.validAps dp)).out = Except.ok (some c)
    rw [hvalid, hloop post]
  · intro env fuel s dp st L v hready hwr hctrl hns hskips
    rw [rom_table_prelude env fuel s dp st v hready.1 hready.2.2.1 hready.2.2.2.2.1
      hctrl hns]
    show (romLoop (fuel + 1) env dp s (env.validAps dp)).out = Except.ok none
    exact romLoop_all_skip env fuel dp hwr (env.validAps dp) s st L hready hskips

/-- Witness for C6: in the concrete four-AP scenario (AP 0 not a Memory
AP, AP 1 a Memory AP whose component is not a ROM table, APs 2 and 3
Memory APs with identifiable class-1 ROM tables), the scan returns the
identity of AP 2 — JEDEC cc=8, id=0x3B, part 0x1234 — and the loop result
on the prefix `[0, 1] ++ 2 :: post` is the same for every `post`. -/
theorem c6_first_matching_ap_wins_witness :
    (read_from_rom_table 1 romEnv romSys DpAddress.Default).out =
      Except.ok (some ⟨8, 0x3B, 0x1234⟩) ∧
    ∃ s' tr, ∀ post', romLoop 1 romEnv DpAddress.Default romSys ([0, 1] ++ 2 :: post') =
      ⟨s', tr, Except.ok (some ⟨8, 0x3B, 0x1234⟩)⟩ := by
  have hskips : ∀ a ∈ [0, 1], apSkips romEnv DpAddress.Default romList a := by
    intro a ha
    fin_cases ha
    · exact Or.inl ⟨0, rfl, by decide⟩
    · exact Or.inr ⟨0x10000, 0x2000, romApInfo 1, by decide, by decide, rfl, by decide,
        rfl, Or.inl (by decide)⟩
  have hmatch : apMatches romEnv DpAddress.Default romList 2 ⟨8, 0x3B, 0x1234⟩ :=
    ⟨0x10000, 0x2000, romApInfo 2, ⟨some (8, 0x3B), 0x1234⟩, by decide, by decide, rfl,
      by decide, rfl, by decide, rfl, rfl⟩
  have h := c6_first_matching_ap_wins.1 romEnv 0 romSys DpAddress.Default
    { debug_port_version := 0xFF
      current_dpbanksel := 0
      current_apsel := 0
      current_apbanksel := 0
      ap_information := romList }
    romList 0 [0, 1] 2 [3] ⟨8, 0x3B, 0x1234⟩
    ⟨rfl, rfl, by decide, rfl, rfl, rfl⟩
    (fun _ _ _ => rfl) rfl rfl rfl hskips hmatch
  exact h

/-- Witness for C3: with a CTRL/STAT value whose sticky-error bit is set,
the concrete scan emits the CTRL read and then the ABORT
sticky-error-clear write before anything else. -/
theorem c3_sticky_error_cleared_before_scan_witness :
    ∃ t, (read_from_rom_table 1 stickyEnv sys0 DpAddress.Default).trace =
      Event.rawRead PortType.DebugPort CTRL_ADDR ::
      Event.rawWrite PortType.DebugPort ABORT_ADDR abortStkerrclrValue :: t :=
  c3_sticky_error_cleared_before_scan stickyEnv 0 sys0 DpAddress.Default DpState.new 32
    rfl rfl rfl rfl rfl

end ProbeRs
